import Mathlib

/-!
# Verification of the HikariWave Generation Orchestration Engine

Shallow embedding of the generation orchestrator
(`backend/app/services/music_generation.py`), the provider router
(`backend/app/providers/manager.py`), the mixing pipeline
(`backend/app/services/music/pipelines.py`) and the legacy generation
service (`backend/app/services/generation.py`), together with proofs
about the specified behaviour.

Conventions of the embedding:
* Python strings are Lean `String`s; Python slicing `s[:n]` is
  `String.mk (s.data.take n)`.
* Python `a or b` on strings/options treats `None` and `""` as falsy.
* Audio samples are `ℚ` (exact model of the float computation).
* The job record store (`backend.app.repositories.generation`, not part
  of the provided sources) is modelled from the spec: `update_status`
  applies the given status and partial fields to the record addressed by
  the task token and leaves every other field unchanged.
* The concurrent orchestrator is modelled as a small-step transition
  system: each background unit of work is a program counter walking the
  statements of `_run_generation_background` / `_run_generation`, and a
  scheduler step nondeterministically advances one job.
-/

namespace HikariWave

/-! ## String helpers (Python semantics) -/

/-- Python slicing `s[:500]` used for error-message truncation
(`music_generation.py` line 343, `generation.py` line 156). -/
def truncate500 (s : String) : String := String.mk (s.data.take 500)

/-- Python `a or b` for an optional string `a` and a string `b`:
`None` and `""` are falsy. -/
def pyOrS (a : Option String) (b : String) : String :=
  match a with
  | none => b
  | some s => if s = "" then b else s

/-- Python `a or b` for two optional strings. -/
def pyOrOpt (a b : Option String) : Option String :=
  match a with
  | none => b
  | some s => if s = "" then b else some s

theorem truncate500_ne_empty {s : String} (h : s ≠ "") : truncate500 s ≠ "" := by
  unfold truncate500
  cases s with
  | mk data =>
    cases data with
    | nil => exact absurd rfl h
    | cons c cs =>
      intro hc
      have : (c :: List.take 499 cs) = ([] : List Char) :=
        congrArg String.data hc
      exact List.cons_ne_nil _ _ this

theorem truncate500_length_le (s : String) : (truncate500 s).length ≤ 500 := by
  unfold truncate500
  show (s.data.take 500).length ≤ 500
  rw [List.length_take]
  exact min_le_left _ _

/-! ## Error-message formatting

`music_generation.py` line 343 persists
`(str(exc) or type(exc).__name__)[:500]`; the legacy service
`generation.py` line 156 persists `str(exc)[:500]` with no fallback. -/

/-- `(str(exc) or type(exc).__name__)[:500]` from
`GenerationService._run_generation`, `music_generation.py` line 343.
`msg` is `str(exc)`, `tn` is `type(exc).__name__`. -/
def errMsg (msg tn : String) : String :=
  truncate500 (if msg = "" then tn else msg)

/-- `str(exc)[:500]` from the legacy
`GenerationService._run_generation_background`, `generation.py`
line 156. -/
def errMsgLegacy (msg : String) : String := truncate500 msg

theorem errMsg_ne_empty {msg tn : String} (htn : tn ≠ "") : errMsg msg tn ≠ "" := by
  unfold errMsg
  by_cases h : msg = ""
  · simpa [h] using truncate500_ne_empty htn
  · simpa [h] using truncate500_ne_empty h

/-! ## Provider router (`backend/app/providers/manager.py`)

Router maps are Python dicts with insertion order; we model them as
association lists, with lookup returning the first matching key. -/

/-- `dict.get(k)` on an association list. -/
def lookupA {α : Type} (m : List (String × α)) (k : String) : Option α :=
  (m.find? (fun kv => kv.1 == k)).map (fun kv => kv.2)

/-- `ProviderManager._parse_route` (`manager.py` lines 140-144):
`route.split(":", 1)`. -/
def parse_route (route : String) : String × String :=
  match route.splitOn ":" with
  | [] => ("", "")
  | [p] => (p, "")
  | p :: rest => (p, String.intercalate ":" rest)

/-- `ProviderManager.get_llm_provider` (`manager.py` lines 148-154):
resolve `task` through the LLM router, falling back to the `"default"`
entry, then look the provider name up in the registry; raise
`RuntimeError` when the provider is absent. -/
def get_llm_provider {P : Type} (llmRouter : List (String × String))
    (llmProviders : List (String × P)) (task : String) :
    Except String (P × String) :=
  let route := (lookupA llmRouter task).getD ((lookupA llmRouter "default").getD "")
  let pr := parse_route route
  match lookupA llmProviders pr.1 with
  | none => Except.error ("LLM provider not found: " ++ pr.1)
  | some p => Except.ok (p, pr.2)

/-- `ProviderManager.get_music_provider` (`manager.py` lines 231-240):
look up the `"default"` route; when no provider is registered under it,
fall back to the first registered provider (`next(iter(...))`), and
raise `RuntimeError` only when the registry is empty. -/
def get_music_provider {P : Type} (musicRouter : List (String × String))
    (musicProviders : List (String × P)) : Except String P :=
  let route := (lookupA musicRouter "default").getD ""
  match lookupA musicProviders route with
  | some p => Except.ok p
  | none =>
    match musicProviders with
    | [] => Except.error ("Music provider not found: " ++ route)
    | kv :: _ => Except.ok kv.2

/-! ## Generation records and derived jobs
(`backend/app/services/music_generation.py`) -/

/-- The fields of a `Generation` row relevant to job creation and
lineage (`models/database.py` via `repo.create`,
`music_generation.py` lines 109-128). `instrumental` is stored as the
integer `1 if instrumental else 0` (line 123). -/
structure Generation where
  id : Nat
  task_id : String
  status : String
  prompt : String
  enhanced_prompt : Option String
  lyrics : Option String
  genre : Option String
  mood : Option String
  duration : ℚ
  title : Option String
  tempo : Option Nat
  musical_key : Option String
  instruments : Option (List String)
  language : Option String
  instrumental : Nat
  parent_id : Option Nat
  parent_type : Option String
deriving DecidableEq, Repr

/-- The record persisted by `GenerationService.create_generation`
(`music_generation.py` lines 109-128).  The LLM side effects are passed
in as the already-computed `enhanced` result (lines 74-92, best-effort);
`newId` is the store-assigned id and `taskId` the generated token. -/
def createGenerationRecord (newId : Nat) (taskId : String)
    (enhanced : Option String) (prompt : String) (duration : ℚ)
    (genre mood lyrics title : Option String) (tempo : Option Nat)
    (musical_key : Option String) (instruments : Option (List String))
    (language : String) (instrumental : Bool)
    (parent_id : Option Nat) (parent_type : Option String) : Generation :=
  { id := newId,
    task_id := taskId
    status := "pending"
    prompt := prompt
    enhanced_prompt := enhanced
    lyrics := lyrics
    genre := genre
    mood := mood
    duration := duration
    title := title
    tempo := tempo
    musical_key := musical_key
    instruments := instruments
    language := some language
    instrumental := if instrumental then 1 else 0
    parent_id := parent_id
    parent_type := parent_type }

/-- `repo.get_by_id` over a list model of the store. -/
def get_by_id (repo : List Generation) (generation_id : Nat) : Option Generation :=
  repo.find? (fun g => g.id == generation_id)

/-- `GenerationService.extend_generation` (`music_generation.py` lines
141-170).  Returns `none` for the `ValueError` raised when the parent is
absent (line 151); otherwise the record created by the inner
`create_generation` call (lines 153-170). `newId`, `newTaskId` and
`enhanced` stand for the store-assigned id, the fresh token and the
best-effort prompt-enhancement result. -/
def extend_generation (repo : List Generation) (generation_id : Nat)
    (prompt lyrics : Option String) (duration : ℚ)
    (newId : Nat) (newTaskId : String) (enhanced : Option String) :
    Option Generation :=
  match get_by_id repo generation_id with
  | none => none
  | some parent =>
    some (createGenerationRecord newId newTaskId enhanced
      (pyOrS prompt (parent.prompt ++ " (continuation)"))
      duration parent.genre parent.mood
      (pyOrOpt lyrics parent.lyrics)
      parent.title parent.tempo parent.musical_key parent.instruments
      (pyOrS parent.language "en")
      (parent.instrumental ≠ 0)
      (some parent.id) (some "extend"))

/-! ## Audio mixing (`backend/app/services/music/pipelines.py`)

`VocalInstrumentalPipeline._mix_audio` (lines 119-181) decodes two WAV
buffers, downmixes to mono, resamples the lower-rate track to the higher
rate by linear interpolation, zero-pads, forms the weighted sum and
normalises by the peak when it exceeds 1.  We model the decoded PCM data
as a list of frames (each frame the list of channel samples, `ℚ`-valued)
and the arithmetic exactly over `ℚ`; WAV byte decoding/encoding
(`sf.read`/`sf.write`) is abstracted to these sample lists. -/

/-- `arr.mean(axis=1)` for a multi-channel buffer, identity for a mono
buffer (`pipelines.py` lines 141-144; a mono file decodes to 1-D, i.e.
singleton frames, whose mean is the sample itself). -/
def toMono (frames : List (List ℚ)) : List ℚ :=
  frames.map (fun ch => ch.sum / (ch.length : ℚ))

/-- `np.interp(x, np.arange(len(a)), a)`: clamped linear interpolation
between integer sample positions. -/
def interpAt (a : List ℚ) (x : ℚ) : ℚ :=
  if a = [] then 0
  else if x ≤ 0 then a.headD 0
  else if ((a.length : ℚ) - 1) ≤ x then a.getLastD 0
  else
    let i := (⌊x⌋).toNat
    let t := x - (i : ℚ)
    a.getD i 0 + (a.getD (i + 1) 0 - a.getD i 0) * t

/-- `np.linspace(0, stop, num)`: `num` evenly spaced points from `0` to
`stop` inclusive. -/
def linspaceGrid (stop : ℚ) (num : Nat) : List ℚ :=
  if num ≤ 1 then (List.range num).map (fun _ => 0)
  else (List.range num).map (fun k => stop * (k : ℚ) / ((num : ℚ) - 1))

/-- Resampling of one track (`pipelines.py` lines 149-162): when the
track's rate differs from the target, sample
`np.interp(np.linspace(0, len(arr), new_len), np.arange(len(arr)), arr)`
with `new_len = int(len(arr) * target_sr / sr)`. -/
def resampleTrack (a : List ℚ) (sr target : Nat) : List ℚ :=
  if sr = target then a
  else (linspaceGrid ((a.length : ℚ)) (a.length * target / sr)).map (interpAt a)

/-- `np.pad(a, (0, n - len(a)))` (`pipelines.py` lines 165-169). -/
def padTo (a : List ℚ) (n : Nat) : List ℚ :=
  a ++ List.replicate (n - a.length) 0

/-- `np.abs(l).max()` for a non-empty buffer (`pipelines.py` line 175);
`0` for an empty one. -/
def peakOf (l : List ℚ) : ℚ := l.foldr (fun x m => max |x| m) 0

/-- Default `VocalInstrumentalPipeline.__init__` volumes
(`pipelines.py` lines 52-58). -/
def instrumental_volume : ℚ := 1 / 2

/-- Default vocal volume 0.7. -/
def vocal_volume : ℚ := 7 / 10

/-- `VocalInstrumentalPipeline._mix_audio` (`pipelines.py` lines
119-181) on decoded frames: mono downmix, resample to
`target_sr = max(sr_a, sr_b)`, zero-pad to the common length, weighted
sum `a * wi + b * wv`, divide by the peak when it exceeds `1`.
Returns `(mixed samples, target_sr)`. -/
def _mix_audio (framesA : List (List ℚ)) (srA : Nat)
    (framesB : List (List ℚ)) (srB : Nat) (wi wv : ℚ) : List ℚ × Nat :=
  let arrA := toMono framesA
  let arrB := toMono framesB
  let target := max srA srB
  let arrA' := resampleTrack arrA srA target
  let arrB' := resampleTrack arrB srB target
  let maxLen := max arrA'.length arrB'.length
  let aP := padTo arrA' maxLen
  let bP := padTo arrB' maxLen
  let mixed := List.zipWith (fun x y => x * wi + y * wv) aP bP
  let peak := peakOf mixed
  (if 1 < peak then mixed.map (fun x => x / peak) else mixed, target)

/-- A provider's `MusicGenerationResponse` restricted to the fields the
pipeline reads (`providers/music/base.py` lines 41-48), with
`audio_data` already decoded to frames. -/
structure ProviderResult where
  frames : List (List ℚ)
  sample_rate : Nat
  duration : ℚ
deriving DecidableEq, Repr

/-- The mixed response produced by `VocalInstrumentalPipeline.run`. -/
structure MixedResponse where
  samples : List ℚ
  sample_rate : Nat
  duration : ℚ
deriving DecidableEq, Repr

/-- `VocalInstrumentalPipeline.run` (`pipelines.py` lines 60-113) after
both providers returned: mix the two tracks with the default volumes and
report `duration = max(instrumental.duration, vocal.duration)`
(lines 91-106). -/
def VocalInstrumentalPipeline.run (instR vocR : ProviderResult) : MixedResponse :=
  let m := _mix_audio instR.frames instR.sample_rate vocR.frames vocR.sample_rate
    instrumental_volume vocal_volume
  { samples := m.1, sample_rate := m.2, duration := max instR.duration vocR.duration }

/-- The weighted sum the spec describes: both tracks decoded to mono,
the lower-rate track linearly resampled up to `max(sr_i, sr_v)`, the
shorter buffer zero-padded, then `instrumental * 0.5 + vocal * 0.7`. -/
def specWeightedSum (framesA : List (List ℚ)) (srA : Nat)
    (framesB : List (List ℚ)) (srB : Nat) : List ℚ :=
  let arrA' := resampleTrack (toMono framesA) srA (max srA srB)
  let arrB' := resampleTrack (toMono framesB) srB (max srA srB)
  let len := max arrA'.length arrB'.length
  List.zipWith (fun x y => x * (1 / 2) + y * (7 / 10))
    (padTo arrA' len) (padTo arrB' len)

theorem peakOf_nonneg (l : List ℚ) : 0 ≤ peakOf l := by
  induction l with
  | nil => exact le_refl 0
  | cons x t ih => exact le_trans ih (le_max_right _ _)

theorem peakOf_map_div (l : List ℚ) {p : ℚ} (hp : 0 < p) :
    peakOf (l.map (fun x => x / p)) = peakOf l / p := by
  induction l with
  | nil => simp [peakOf]
  | cons x t ih =>
    show max |x / p| (peakOf (t.map (fun x => x / p))) = max |x| (peakOf t) / p
    rw [ih, abs_div, abs_of_pos hp, max_div_div_right hp.le]

theorem peakOf_le_one_of_normalized (mixed : List ℚ) :
    peakOf (if 1 < peakOf mixed then mixed.map (fun x => x / peakOf mixed) else mixed)
      ≤ 1 := by
  by_cases h : 1 < peakOf mixed
  · rw [if_pos h, peakOf_map_div mixed (lt_trans one_pos h)]
    rw [div_le_one (lt_trans one_pos h)]
  · rw [if_neg h]
    exact le_of_not_lt h

/-! ## The orchestrator as a transition system
(`backend/app/services/music_generation.py`)

One generation job's life is linearised into the statements it executes:
the synchronous pre-processing and record creation inside
`create_generation` (lines 74-137), then the background task
`_run_generation_background` (lines 221-260) wrapping `_run_generation`
(lines 262-348) and `_generate_cover_art` (lines 350-373).  A system
state holds every job's program counter and persisted record, the
`_running_tasks` table (line 42) and — derived from the program
counters — the set of semaphore holders (`_generation_semaphore`,
capacity 2, line 43).  A scheduler step advances one job by one
statement; exceptions, the timeout and cancellation are nondeterministic
transitions available exactly where the source can raise them. -/

/-- `Generation.status` values. -/
inductive Status where
  | pending
  | processing
  | completed
  | failed
deriving DecidableEq, Repr

/-- The status-relevant projection of a `Generation` row as mutated by
the background task through the repository. -/
structure JobRec where
  status : Status
  progress : Nat
  errorMessage : Option String
  audioPath : Option String
  coverArtPath : Option String
deriving DecidableEq, Repr

/-- The record persisted by `repo.create` (`music_generation.py`
lines 109-128): status `pending`, progress 0, no error, no assets. -/
def initRec : JobRec :=
  { status := Status.pending, progress := 0, errorMessage := none,
    audioPath := none, coverArtPath := none }

/-- Program counter of one job's unit of work.  Locations map to
`music_generation.py`:
* `enhance`/`lyricsGen`: best-effort LLM pre-processing in
  `create_generation` (lines 74-92), before the record exists;
* `persistRec`: `repo.create` + task spawn + table registration
  (lines 109-137);
* `waitGate`: blocked in `async with _generation_semaphore` (line 229);
* `updProc10`/`updProc30`: the two `processing` updates (271-276,
  285-290);
* `backend`: `music_provider.generate` in flight (line 292);
* `persistAudio`: storage save (295-309);
* `updProgress70`: progress-70 update when a cover was requested
  (311-317);
* `updCompleted`: the `completed` update (319-328);
* `fetchCover`: `repo.get_by_task_id` before enrichment (line 333);
* `coverArt`: inside `_generate_cover_art`'s `try` (352-368);
* `failHandler m`: the `except Exception` block of `_run_generation`
  (337-348) about to persist message `m`;
* `timeoutHandler`/`cancelHandler`: the `except TimeoutError` /
  `except asyncio.CancelledError` blocks of
  `_run_generation_background` (237-248, 249-260);
* `finishGate`: the unit of work is exiting the `async with` block and
  running the done callback (line 137);
* `finished`: task completed and removed from `_running_tasks`. -/
inductive PC where
  | enhance
  | lyricsGen
  | persistRec
  | waitGate
  | updProc10
  | updProc30
  | backend
  | persistAudio
  | updProgress70
  | updCompleted
  | fetchCover
  | coverArt
  | failHandler (m : String)
  | timeoutHandler
  | cancelHandler
  | finishGate
  | finished
deriving DecidableEq, Repr

/-- Whether a job at this location holds a semaphore slot: everything
from the acquisition (line 229) to the exit of the `async with` block.
In particular `coverArt` still holds the gate, because
`_generate_cover_art` is awaited inside `_run_generation`, which runs
inside the `async with _generation_semaphore` block (lines 229-236). -/
def PC.holdsGateB : PC → Bool
  | PC.enhance | PC.lyricsGen | PC.persistRec | PC.waitGate | PC.finished => false
  | _ => true

/-- Whether the job's token is in `_running_tasks`: from the
registration at line 136 until the done callback (line 137) pops it. -/
def PC.inTableB : PC → Bool
  | PC.enhance | PC.lyricsGen | PC.persistRec | PC.finished => false
  | _ => true

/-- Locations inside `_run_generation`'s `try` block (lines 270-335),
where an exception is caught by the `except Exception` at line 337. -/
def PC.inRunB : PC → Bool
  | PC.updProc10 | PC.updProc30 | PC.backend | PC.persistAudio
  | PC.updProgress70 | PC.updCompleted | PC.fetchCover => true
  | _ => false

/-- Locations inside `asyncio.wait_for(self._run_generation(...))`
(lines 231-236), where the timeout may expire and a cooperative
cancellation is caught by the handler at line 249. -/
def PC.inTimedB : PC → Bool
  | PC.updProc10 | PC.updProc30 | PC.backend | PC.persistAudio
  | PC.updProgress70 | PC.updCompleted | PC.fetchCover | PC.coverArt
  | PC.failHandler _ => true
  | _ => false

/-- One job: program counter, persisted record (none until
`repo.create` ran), and its `generate_cover` flag. -/
structure JobState where
  pc : PC
  record : Option JobRec
  generateCover : Bool
deriving DecidableEq, Repr

/-- System state: all jobs (the job's index is its token), plus the
`_running_tasks` key set. -/
structure Sys where
  jobs : List JobState
  table : List Nat
deriving DecidableEq, Repr

/-- `_GENERATION_TIMEOUT` (`music_generation.py` line 17). -/
def _GENERATION_TIMEOUT : Nat := 1800

/-- `asyncio.Semaphore(2)` capacity (`music_generation.py` line 43). -/
def semaphoreCapacity : Nat := 2

/-- Number of jobs currently holding a semaphore slot. -/
def countHolders (s : Sys) : Nat :=
  s.jobs.countP (fun j => j.pc.holdsGateB)

/-- Number of jobs currently executing the backend `generate` call. -/
def countBackend (s : Sys) : Nat :=
  s.jobs.countP (fun j => j.pc == PC.backend)

/-- `GenerationService.cancel_task` (`music_generation.py` lines
213-219): returns `True` iff the token is in `_running_tasks` (in which
case it calls `task.cancel()`). -/
def cancel_task (s : Sys) (i : Nat) : Bool := s.table.contains i

/-- Scheduler step: one job advances by one statement.  Each constructor
is one statement (or one raised exception) of
`music_generation.py`; see the `PC` documentation for line numbers. -/
inductive Step : Sys → Sys → Prop where
  /-- Prompt enhancement completes or fails (lines 74-81, best-effort:
  both outcomes continue identically for the record). -/
  | enhanceDone {s : Sys} (i : Nat) {j : JobState}
      (hj : s.jobs.get? i = some j) (hpc : j.pc = PC.enhance) :
      Step s { s with jobs := s.jobs.set i { j with pc := PC.lyricsGen } }
  /-- Lyrics generation completes or fails (lines 84-92, best-effort). -/
  | lyricsDone {s : Sys} (i : Nat) {j : JobState}
      (hj : s.jobs.get? i = some j) (hpc : j.pc = PC.lyricsGen) :
      Step s { s with jobs := s.jobs.set i { j with pc := PC.persistRec } }
  /-- `repo.create` persists the `pending` record, the background task
  is spawned and registered in `_running_tasks` (lines 109-137). -/
  | persistDone {s : Sys} (i : Nat) {j : JobState}
      (hj : s.jobs.get? i = some j) (hpc : j.pc = PC.persistRec) :
      Step s { s with
        jobs := s.jobs.set i { j with pc := PC.waitGate, record := some initRec },
        table := i :: s.table }
  /-- The semaphore is acquired (line 229); only possible while fewer
  than `semaphoreCapacity` jobs hold a slot. -/
  | gateAcquire {s : Sys} (i : Nat) {j : JobState}
      (hj : s.jobs.get? i = some j) (hpc : j.pc = PC.waitGate)
      (hcap : countHolders s < semaphoreCapacity) :
      Step s { s with jobs := s.jobs.set i { j with pc := PC.updProc10 } }
  /-- `task.cancel()` lands while the task is blocked acquiring the
  semaphore: the `CancelledError` is raised at line 229, outside the
  `try` that starts at line 230, so no handler runs and the done
  callback removes the task. -/
  | cancelAtGate {s : Sys} (i : Nat) {j : JobState}
      (hj : s.jobs.get? i = some j) (hpc : j.pc = PC.waitGate)
      (htab : i ∈ s.table) :
      Step s { s with
        jobs := s.jobs.set i { j with pc := PC.finished },
        table := s.table.erase i }
  /-- First `processing` update (lines 271-276). -/
  | proc10 {s : Sys} (i : Nat) {j : JobState} {r : JobRec}
      (hj : s.jobs.get? i = some j) (hpc : j.pc = PC.updProc10)
      (hr : j.record = some r) :
      Step s { s with
        jobs := s.jobs.set i
          { j with
              pc := PC.updProc30,
              record := some { r with status := Status.processing, progress := 10 } } }
  /-- Second `processing` update (lines 285-290). -/
  | proc30 {s : Sys} (i : Nat) {j : JobState} {r : JobRec}
      (hj : s.jobs.get? i = some j) (hpc : j.pc = PC.updProc30)
      (hr : j.record = some r) :
      Step s { s with
        jobs := s.jobs.set i
          { j with pc := PC.backend, record := some { r with progress := 30 } } }
  /-- `music_provider.generate` returns (line 292). -/
  | backendDone {s : Sys} (i : Nat) {j : JobState}
      (hj : s.jobs.get? i = some j) (hpc : j.pc = PC.backend) :
      Step s { s with jobs := s.jobs.set i { j with pc := PC.persistAudio } }
  /-- The audio bytes are saved (lines 295-309); then line 311 branches
  on `generate_cover`. -/
  | audioSaved {s : Sys} (i : Nat) {j : JobState}
      (hj : s.jobs.get? i = some j) (hpc : j.pc = PC.persistAudio) :
      Step s { s with
        jobs := s.jobs.set i
          { j with pc := if j.generateCover then PC.updProgress70 else PC.updCompleted } }
  /-- Progress-70 update (lines 312-317). -/
  | progress70 {s : Sys} (i : Nat) {j : JobState} {r : JobRec}
      (hj : s.jobs.get? i = some j) (hpc : j.pc = PC.updProgress70)
      (hr : j.record = some r) :
      Step s { s with
        jobs := s.jobs.set i
          { j with pc := PC.updCompleted, record := some { r with progress := 70 } } }
  /-- The `completed` update persists the audio reference
  (lines 319-328); then line 332 branches on `generate_cover`. -/
  | completedWrite {s : Sys} (i : Nat) {j : JobState} {r : JobRec} (fname : String)
      (hj : s.jobs.get? i = some j) (hpc : j.pc = PC.updCompleted)
      (hr : j.record = some r) :
      Step s { s with
        jobs := s.jobs.set i
          { j with
              pc := if j.generateCover then PC.fetchCover else PC.finishGate,
              record := some { r with status := Status.completed, progress := 100,
                                         audioPath := some fname } } }
  /-- `repo.get_by_task_id` returns the record (lines 333-334). -/
  | fetchSome {s : Sys} (i : Nat) {j : JobState}
      (hj : s.jobs.get? i = some j) (hpc : j.pc = PC.fetchCover) :
      Step s { s with jobs := s.jobs.set i { j with pc := PC.coverArt } }
  /-- `repo.get_by_task_id` returns nothing, enrichment is skipped
  (`if gen:` at line 334). -/
  | fetchNone {s : Sys} (i : Nat) {j : JobState}
      (hj : s.jobs.get? i = some j) (hpc : j.pc = PC.fetchCover) :
      Step s { s with jobs := s.jobs.set i { j with pc := PC.finishGate } }
  /-- An exception with `str(exc) = msg` and `type(exc).__name__ = tn`
  escapes any statement of `_run_generation`'s `try` block and reaches
  the `except Exception` at line 337. -/
  | runFail {s : Sys} (i : Nat) {j : JobState} (msg tn : String) (htn : tn ≠ "")
      (hj : s.jobs.get? i = some j) (hpc : j.pc.inRunB = true) :
      Step s { s with
        jobs := s.jobs.set i
          { j with pc := PC.failHandler (errMsg msg tn) } }
  /-- Cover-art enrichment succeeds: `update_cover_art` persists the
  image reference (lines 354-368). -/
  | coverSaved {s : Sys} (i : Nat) {j : JobState} {r : JobRec} (img : String)
      (hj : s.jobs.get? i = some j) (hpc : j.pc = PC.coverArt)
      (hr : j.record = some r) :
      Step s { s with
        jobs := s.jobs.set i
          { j with
              pc := PC.finishGate,
              record := some { r with coverArtPath := some img } } }
  /-- Any exception inside `_generate_cover_art` (cover-prompt
  generation, image rendering, or persisting the result) is absorbed by
  the `except Exception` at line 370: the record is untouched. -/
  | coverFail {s : Sys} (i : Nat) {j : JobState}
      (hj : s.jobs.get? i = some j) (hpc : j.pc = PC.coverArt) :
      Step s { s with jobs := s.jobs.set i { j with pc := PC.finishGate } }
  /-- The `except Exception` handler persists the `failed` record with
  the truncated message (lines 339-346). -/
  | failWrite {s : Sys} (i : Nat) {j : JobState} {r : JobRec} {m : String}
      (hj : s.jobs.get? i = some j) (hpc : j.pc = PC.failHandler m)
      (hr : j.record = some r) :
      Step s { s with
        jobs := s.jobs.set i
          { j with
              pc := PC.finishGate,
              record := some { r with status := Status.failed,
                                         errorMessage := some m, progress := 0 } } }
  /-- The failure write itself fails and is swallowed (lines 347-348). -/
  | failWriteFail {s : Sys} (i : Nat) {j : JobState} {m : String}
      (hj : s.jobs.get? i = some j) (hpc : j.pc = PC.failHandler m) :
      Step s { s with jobs := s.jobs.set i { j with pc := PC.finishGate } }
  /-- The 30-minute timeout expires: `asyncio.wait_for` cancels
  `_run_generation` wherever it is suspended and raises `TimeoutError`
  into the handler at line 237. -/
  | timeoutFire {s : Sys} (i : Nat) {j : JobState}
      (hj : s.jobs.get? i = some j) (hpc : j.pc.inTimedB = true) :
      Step s { s with jobs := s.jobs.set i { j with pc := PC.timeoutHandler } }
  /-- The timeout handler persists `failed` with message
  "Generation timed out" (lines 240-246). -/
  | timeoutWrite {s : Sys} (i : Nat) {j : JobState} {r : JobRec}
      (hj : s.jobs.get? i = some j) (hpc : j.pc = PC.timeoutHandler)
      (hr : j.record = some r) :
      Step s { s with
        jobs := s.jobs.set i
          { j with
              pc := PC.finishGate,
              record := some { r with status := Status.failed,
                                         errorMessage := some "Generation timed out",
                                         progress := 0 } } }
  /-- The timeout write itself fails and is swallowed (lines 247-248). -/
  | timeoutWriteFail {s : Sys} (i : Nat) {j : JobState}
      (hj : s.jobs.get? i = some j) (hpc : j.pc = PC.timeoutHandler) :
      Step s { s with jobs := s.jobs.set i { j with pc := PC.finishGate } }
  /-- `task.cancel()` lands inside the timed region: `CancelledError`
  reaches the handler at line 249. -/
  | cancelFire {s : Sys} (i : Nat) {j : JobState}
      (hj : s.jobs.get? i = some j) (htab : i ∈ s.table)
      (hpc : j.pc.inTimedB = true) :
      Step s { s with jobs := s.jobs.set i { j with pc := PC.cancelHandler } }
  /-- The cancellation handler persists `failed` with message
  "Cancelled by user" (lines 252-258). -/
  | cancelWrite {s : Sys} (i : Nat) {j : JobState} {r : JobRec}
      (hj : s.jobs.get? i = some j) (hpc : j.pc = PC.cancelHandler)
      (hr : j.record = some r) :
      Step s { s with
        jobs := s.jobs.set i
          { j with
              pc := PC.finishGate,
              record := some { r with status := Status.failed,
                                         errorMessage := some "Cancelled by user",
                                         progress := 0 } } }
  /-- The cancellation write itself fails and is swallowed
  (lines 259-260). -/
  | cancelWriteFail {s : Sys} (i : Nat) {j : JobState}
      (hj : s.jobs.get? i = some j) (hpc : j.pc = PC.cancelHandler) :
      Step s { s with jobs := s.jobs.set i { j with pc := PC.finishGate } }
  /-- The unit of work exits the `async with` block, releasing the
  semaphore slot, and the done callback pops the token from
  `_running_tasks` (lines 229, 137). -/
  | taskFinish {s : Sys} (i : Nat) {j : JobState}
      (hj : s.jobs.get? i = some j) (hpc : j.pc = PC.finishGate) :
      Step s { s with
        jobs := s.jobs.set i { j with pc := PC.finished },
        table := s.table.erase i }

/-- Initial system: one fresh `createGeneration` call per requested job
(one `generate_cover` flag each), nothing persisted, no background
tasks. -/
def initSys (covers : List Bool) : Sys :=
  { jobs := covers.map (fun c => { pc := PC.enhance, record := none, generateCover := c }),
    table := [] }

/-- A system state reachable from some set of concurrent
`createGeneration` calls. -/
def Reachable (s : Sys) : Prop :=
  ∃ covers, Relation.ReflTransGen Step (initSys covers) s

/-! ## List helper lemmas -/

theorem get?_set_self {α : Type} (l : List α) (i : Nat) (a b : α)
    (h : l.get? i = some b) : (l.set i a).get? i = some a := by
  induction l generalizing i with
  | nil => simp [List.get?] at h
  | cons x t ih =>
    cases i with
    | zero => rfl
    | succ n => exact ih n h

theorem get?_set_ne {α : Type} (l : List α) {i k : Nat} (a : α) (h : i ≠ k) :
    (l.set i a).get? k = l.get? k := by
  induction l generalizing i k with
  | nil => rfl
  | cons x t ih =>
    cases i with
    | zero =>
      cases k with
      | zero => exact absurd rfl h
      | succ n => rfl
    | succ m =>
      cases k with
      | zero => rfl
      | succ n => exact ih (fun e => h (congrArg Nat.succ e))

theorem countP_set {α : Type} (l : List α) (i : Nat) {j : α} (j' : α)
    (h : l.get? i = some j) (p : α → Bool) :
    (l.set i j').countP p + (if p j then 1 else 0)
      = l.countP p + (if p j' then 1 else 0) := by
  induction l generalizing i with
  | nil => simp [List.get?] at h
  | cons x t ih =>
    cases i with
    | zero =>
      have hx : x = j := by simpa [List.get?] using h
      subst hx
      simp only [List.set, List.countP_cons]
      omega
    | succ n =>
      have ht := ih n (by simpa [List.get?] using h)
      simp only [List.set, List.countP_cons]
      omega

/-! ## The system invariant -/

/-- Per-record invariant: `status == failed` exactly when
`error_message` is set, and any error message is non-empty. -/
def recOkB (r : JobRec) : Bool :=
  ((r.status == Status.failed) == r.errorMessage.isSome) &&
  (match r.errorMessage with
   | some m => decide (m ≠ "")
   | none => true)

/-- Per-job control invariant, relating the program counter to the
persisted record. -/
def pcOkB : PC → Option JobRec → Bool
  | PC.enhance, none => true
  | PC.lyricsGen, none => true
  | PC.persistRec, none => true
  | PC.waitGate, some r =>
      (r.status == Status.pending) && r.errorMessage.isNone &&
        r.coverArtPath.isNone && r.audioPath.isNone
  | PC.updProc10, some r =>
      (r.status == Status.pending) && r.errorMessage.isNone &&
        r.coverArtPath.isNone && r.audioPath.isNone
  | PC.updProc30, some r =>
      (r.status == Status.processing) && r.errorMessage.isNone &&
        r.coverArtPath.isNone && r.audioPath.isNone
  | PC.backend, some r =>
      (r.status == Status.processing) && r.errorMessage.isNone &&
        r.coverArtPath.isNone && r.audioPath.isNone
  | PC.persistAudio, some r =>
      (r.status == Status.processing) && r.errorMessage.isNone &&
        r.coverArtPath.isNone && r.audioPath.isNone
  | PC.updProgress70, some r =>
      (r.status == Status.processing) && r.errorMessage.isNone &&
        r.coverArtPath.isNone && r.audioPath.isNone
  | PC.updCompleted, some r =>
      (r.status == Status.processing) && r.errorMessage.isNone &&
        r.coverArtPath.isNone && r.audioPath.isNone
  | PC.fetchCover, some r =>
      (r.status == Status.completed) && r.errorMessage.isNone &&
        r.coverArtPath.isNone && r.audioPath.isSome
  | PC.coverArt, some r =>
      (r.status == Status.completed) && r.errorMessage.isNone &&
        r.coverArtPath.isNone && r.audioPath.isSome
  | PC.failHandler m, some _ => decide (m ≠ "")
  | PC.timeoutHandler, some _ => true
  | PC.cancelHandler, some _ => true
  | PC.finishGate, some _ => true
  | PC.finished, some _ => true
  | _, _ => false

/-- Full per-job invariant. -/
def jobOkB (j : JobState) : Bool :=
  pcOkB j.pc j.record &&
  (match j.record with
   | some r => recOkB r
   | none => true)

/-- System invariant: every job is well-formed, at most
`semaphoreCapacity` jobs hold the gate, and `_running_tasks` holds
exactly the tokens of jobs between registration and the done
callback. -/
structure Inv (s : Sys) : Prop where
  jobsOk : ∀ j ∈ s.jobs, jobOkB j = true
  gate : countHolders s ≤ semaphoreCapacity
  nodupTable : s.table.Nodup
  tableOk : ∀ i, i ∈ s.table ↔ ∃ j, s.jobs.get? i = some j ∧ j.pc.inTableB = true

theorem countHolders_set (s : Sys) {i : Nat} {j : JobState}
    (hj : s.jobs.get? i = some j) (j' : JobState) :
    countHolders { s with jobs := s.jobs.set i j' }
        + (if j.pc.holdsGateB then 1 else 0)
      = countHolders s + (if j'.pc.holdsGateB then 1 else 0) :=
  countP_set s.jobs i j' hj _

theorem jobsOk_set {s : Sys} (hInv : Inv s) {i : Nat} {j' : JobState}
    (hok : jobOkB j' = true) :
    ∀ jj ∈ s.jobs.set i j', jobOkB jj = true := by
  intro jj hjj
  rcases List.mem_or_eq_of_mem_set hjj with hmem | heq
  · exact hInv.jobsOk jj hmem
  · exact heq ▸ hok

theorem tableOk_set {s : Sys} (hInv : Inv s) {i : Nat} {j : JobState}
    (hj : s.jobs.get? i = some j) {j' : JobState}
    (htab : j'.pc.inTableB = j.pc.inTableB) :
    ∀ k, k ∈ s.table ↔
      ∃ jj, (s.jobs.set i j').get? k = some jj ∧ jj.pc.inTableB = true := by
  intro k
  by_cases hk : i = k
  · subst hk
    rw [hInv.tableOk i]
    constructor
    · rintro ⟨jj, hjj, hin⟩
      refine ⟨j', get?_set_self _ _ _ _ hj, ?_⟩
      rw [hj] at hjj
      cases hjj
      rw [htab]; exact hin
    · rintro ⟨jj, hjj, hin⟩
      rw [get?_set_self _ _ _ _ hj] at hjj
      cases hjj
      exact ⟨j, hj, htab ▸ hin⟩
  · rw [hInv.tableOk k, get?_set_ne _ _ hk]

/-- Master preservation lemma: a step that replaces job `i` by `j'`,
leaves the task table unchanged, keeps table membership, and either
does not add a gate holder or had spare gate capacity, preserves the
invariant. -/
theorem inv_set {s : Sys} (hInv : Inv s) {i : Nat} {j : JobState}
    (hj : s.jobs.get? i = some j) {j' : JobState}
    (hok : jobOkB j' = true)
    (htab : j'.pc.inTableB = j.pc.inTableB)
    (hgate : (j'.pc.holdsGateB = true → j.pc.holdsGateB = true)
             ∨ countHolders s < semaphoreCapacity) :
    Inv { s with jobs := s.jobs.set i j' } := by
  refine ⟨jobsOk_set hInv hok, ?_, hInv.nodupTable, tableOk_set hInv hj htab⟩
  have hcount := countHolders_set s hj j'
  have hbound := hInv.gate
  unfold semaphoreCapacity at *
  rcases hgate with hmono | hcap
  · have hm : (if j'.pc.holdsGateB then 1 else 0)
        ≤ (if j.pc.holdsGateB then (1 : Nat) else 0) := by
      cases hg' : j'.pc.holdsGateB with
      | false => simp
      | true => rw [hmono hg']
    omega
  · have h1 : (if j'.pc.holdsGateB then 1 else 0) ≤ (1 : Nat) := by
      split <;> omega
    omega

theorem inRun_inTimed {pc : PC} (h : pc.inRunB = true) : pc.inTimedB = true := by
  cases pc <;> simp_all [PC.inRunB, PC.inTimedB]

theorem inTimed_inTable {pc : PC} (h : pc.inTimedB = true) : pc.inTableB = true := by
  cases pc <;> simp_all [PC.inTimedB, PC.inTableB]

theorem inTimed_holdsGate {pc : PC} (h : pc.inTimedB = true) : pc.holdsGateB = true := by
  cases pc <;> simp_all [PC.inTimedB, PC.holdsGateB]

theorem pcOk_some_of_inTimed {pc : PC} {rec : Option JobRec}
    (hok : pcOkB pc rec = true) (h : pc.inTimedB = true) : ∃ r, rec = some r := by
  cases rec with
  | some r => exact ⟨r, rfl⟩
  | none => cases pc <;> simp_all [pcOkB, PC.inTimedB]

/-- Invariant preservation for `persistDone`: the record is created and
the token is registered. -/
theorem inv_persist {s : Sys} (hInv : Inv s) {i : Nat} {j : JobState}
    (hj : s.jobs.get? i = some j) (hpc : j.pc = PC.persistRec) :
    Inv { s with
      jobs := s.jobs.set i { j with pc := PC.waitGate, record := some initRec },
      table := i :: s.table } := by
  have hnotin : i ∉ s.table := by
    intro hmem
    rcases (hInv.tableOk i).mp hmem with ⟨jj, hjj, hin⟩
    rw [hj] at hjj
    cases hjj
    rw [hpc] at hin
    exact absurd hin (by simp [PC.inTableB])
  have hok : jobOkB { j with pc := PC.waitGate, record := some initRec } = true := by
    simp [jobOkB, pcOkB, recOkB, initRec]
  refine ⟨jobsOk_set hInv hok, ?_, ?_, ?_⟩
  · show (s.jobs.set i _).countP (fun j => j.pc.holdsGateB) ≤ semaphoreCapacity
    have hbound : s.jobs.countP (fun j => j.pc.holdsGateB) ≤ semaphoreCapacity :=
      hInv.gate
    have hcount := countP_set s.jobs i
      { j with pc := PC.waitGate, record := some initRec } hj
      (fun j => j.pc.holdsGateB)
    rw [hpc] at hcount
    have e0 : (if PC.persistRec.holdsGateB = true then (1 : Nat) else 0) = 0 := rfl
    have e1 : (if ({ j with pc := PC.waitGate, record := some initRec } :
        JobState).pc.holdsGateB = true then (1 : Nat) else 0) = 0 := rfl
    rw [e0, e1] at hcount
    omega
  · exact List.Nodup.cons hnotin hInv.nodupTable
  · intro k
    by_cases hk : i = k
    · subst hk
      constructor
      · intro _
        exact ⟨_, get?_set_self _ _ _ _ hj, rfl⟩
      · intro _
        exact List.mem_cons_self i s.table
    · have hne : k ≠ i := fun e => hk e.symm
      rw [List.mem_cons]
      rw [get?_set_ne _ _ hk]
      rw [← hInv.tableOk k]
      simp [hne]

/-- Invariant preservation for the two steps that finish a unit of work
and pop its token: `cancelAtGate` and `taskFinish`. -/
theorem inv_erase {s : Sys} (hInv : Inv s) {i : Nat} {j : JobState}
    (hj : s.jobs.get? i = some j) {j' : JobState}
    (hok : jobOkB j' = true)
    (htab' : j'.pc.inTableB = false)
    (hmono : j'.pc.holdsGateB = true → j.pc.holdsGateB = true) :
    Inv { s with jobs := s.jobs.set i j', table := s.table.erase i } := by
  refine ⟨jobsOk_set hInv hok, ?_, hInv.nodupTable.erase i, ?_⟩
  · show (s.jobs.set i _).countP (fun j => j.pc.holdsGateB) ≤ semaphoreCapacity
    have hbound : s.jobs.countP (fun j => j.pc.holdsGateB) ≤ semaphoreCapacity :=
      hInv.gate
    have hcount := countP_set s.jobs i j' hj (fun j => j.pc.holdsGateB)
    have hm : (if j'.pc.holdsGateB then 1 else 0)
        ≤ (if j.pc.holdsGateB then (1 : Nat) else 0) := by
      cases hg' : j'.pc.holdsGateB with
      | false => simp
      | true => rw [hmono hg']
    unfold semaphoreCapacity at hbound ⊢
    omega
  · intro k
    rw [hInv.nodupTable.mem_erase_iff]
    by_cases hk : i = k
    · subst hk
      constructor
      · rintro ⟨hne, _⟩
        exact absurd rfl hne
      · rintro ⟨jj, hjj, hin⟩
        rw [get?_set_self _ _ _ _ hj] at hjj
        cases hjj
        rw [htab'] at hin
        cases hin
    · have hne : k ≠ i := fun e => hk e.symm
      rw [get?_set_ne _ _ hk, ← hInv.tableOk k]
      simp [hne]

theorem jobOk_pcOk {j : JobState} (h : jobOkB j = true) :
    pcOkB j.pc j.record = true := by
  simp only [jobOkB, Bool.and_eq_true] at h
  exact h.1

theorem jobOk_recOk {j : JobState} {r : JobRec} (h : jobOkB j = true)
    (hr : j.record = some r) : recOkB r = true := by
  simp only [jobOkB, Bool.and_eq_true, hr] at h
  exact h.2

/-- Every scheduler step preserves the system invariant. -/
theorem inv_step {s s' : Sys} (hInv : Inv s) (hstep : Step s s') : Inv s' := by
  cases hstep with
  | @enhanceDone i j hj hpc =>
    refine inv_set hInv hj ?_ (by rw [hpc]; rfl) (Or.inl fun h => by simp [PC.holdsGateB] at h)
    have hojb := hInv.jobsOk j (List.get?_mem hj)
    cases hr : j.record with
    | none => simp [jobOkB, pcOkB, hr]
    | some r => simp [jobOkB, pcOkB, hpc, hr] at hojb
  | @lyricsDone i j hj hpc =>
    refine inv_set hInv hj ?_ (by rw [hpc]; rfl) (Or.inl fun h => by simp [PC.holdsGateB] at h)
    have hojb := hInv.jobsOk j (List.get?_mem hj)
    cases hr : j.record with
    | none => simp [jobOkB, pcOkB, hr]
    | some r => simp [jobOkB, pcOkB, hpc, hr] at hojb
  | @persistDone i j hj hpc =>
    exact inv_persist hInv hj hpc
  | @gateAcquire i j hj hpc hcap =>
    refine inv_set hInv hj ?_ (by rw [hpc]; rfl) (Or.inr hcap)
    have hojb := hInv.jobsOk j (List.get?_mem hj)
    cases hr : j.record with
    | none => simp [jobOkB, pcOkB, hpc, hr] at hojb
    | some r =>
      simp [jobOkB, pcOkB, hpc, hr] at hojb ⊢
      tauto
  | @cancelAtGate i j hj hpc htab =>
    refine inv_erase hInv hj ?_ rfl (fun h => by simp [PC.holdsGateB] at h)
    have hojb := hInv.jobsOk j (List.get?_mem hj)
    cases hr : j.record with
    | none => simp [jobOkB, pcOkB, hpc, hr] at hojb
    | some r =>
      have hrec := jobOk_recOk hojb hr
      simp [jobOkB, pcOkB, hr, hrec]
  | @proc10 i j r hj hpc hr =>
    refine inv_set hInv hj ?_ (by rw [hpc]; rfl) (Or.inl fun _ => by rw [hpc]; rfl)
    have hojb := hInv.jobsOk j (List.get?_mem hj)
    simp [jobOkB, pcOkB, hpc, hr] at hojb
    have he : r.errorMessage = none := by tauto
    have hc : r.coverArtPath = none := by tauto
    have ha : r.audioPath = none := by tauto
    simp [jobOkB, pcOkB, recOkB, he, hc, ha]
  | @proc30 i j r hj hpc hr =>
    refine inv_set hInv hj ?_ (by rw [hpc]; rfl) (Or.inl fun _ => by rw [hpc]; rfl)
    have hojb := hInv.jobsOk j (List.get?_mem hj)
    simp [jobOkB, pcOkB, hpc, hr] at hojb
    have hs : r.status = Status.processing := by tauto
    have he : r.errorMessage = none := by tauto
    have hc : r.coverArtPath = none := by tauto
    have ha : r.audioPath = none := by tauto
    simp [jobOkB, pcOkB, recOkB, hs, he, hc, ha]
  | @backendDone i j hj hpc =>
    refine inv_set hInv hj ?_ (by rw [hpc]; rfl) (Or.inl fun _ => by rw [hpc]; rfl)
    have hojb := hInv.jobsOk j (List.get?_mem hj)
    cases hr : j.record with
    | none => simp [jobOkB, pcOkB, hpc, hr] at hojb
    | some r =>
      simp [jobOkB, pcOkB, hpc, hr] at hojb ⊢
      tauto
  | @audioSaved i j hj hpc =>
    refine inv_set hInv hj ?_ ?_ (Or.inl fun _ => by rw [hpc]; rfl)
    · have hojb := hInv.jobsOk j (List.get?_mem hj)
      cases hr : j.record with
      | none => simp [jobOkB, pcOkB, hpc, hr] at hojb
      | some r =>
        simp [jobOkB, pcOkB, hpc, hr] at hojb
        cases hgc : j.generateCover <;>
          simp [jobOkB, pcOkB, hgc, hr] <;> tauto
    · cases hgc : j.generateCover <;> simp [hgc, hpc, PC.inTableB]
  | @progress70 i j r hj hpc hr =>
    refine inv_set hInv hj ?_ (by rw [hpc]; rfl) (Or.inl fun _ => by rw [hpc]; rfl)
    have hojb := hInv.jobsOk j (List.get?_mem hj)
    simp [jobOkB, pcOkB, hpc, hr] at hojb
    have hs : r.status = Status.processing := by tauto
    have he : r.errorMessage = none := by tauto
    have hc : r.coverArtPath = none := by tauto
    have ha : r.audioPath = none := by tauto
    simp [jobOkB, pcOkB, recOkB, hs, he, hc, ha]
  | @completedWrite i j r fname hj hpc hr =>
    refine inv_set hInv hj ?_ ?_ (Or.inl fun _ => by rw [hpc]; rfl)
    · have hojb := hInv.jobsOk j (List.get?_mem hj)
      simp [jobOkB, pcOkB, hpc, hr] at hojb
      have he : r.errorMessage = none := by tauto
      have hc : r.coverArtPath = none := by tauto
      cases hgc : j.generateCover <;>
        simp [jobOkB, pcOkB, recOkB, hgc, he, hc]
    · cases hgc : j.generateCover <;> simp [hgc, hpc, PC.inTableB]
  | @fetchSome i j hj hpc =>
    refine inv_set hInv hj ?_ (by rw [hpc]; rfl) (Or.inl fun _ => by rw [hpc]; rfl)
    have hojb := hInv.jobsOk j (List.get?_mem hj)
    cases hr : j.record with
    | none => simp [jobOkB, pcOkB, hpc, hr] at hojb
    | some r =>
      simp [jobOkB, pcOkB, hpc, hr] at hojb ⊢
      tauto
  | @fetchNone i j hj hpc =>
    refine inv_set hInv hj ?_ (by rw [hpc]; rfl) (Or.inl fun _ => by rw [hpc]; rfl)
    have hojb := hInv.jobsOk j (List.get?_mem hj)
    cases hr : j.record with
    | none => simp [jobOkB, pcOkB, hpc, hr] at hojb
    | some r =>
      have hrec := jobOk_recOk hojb hr
      simp [jobOkB, pcOkB, hr, hrec]
  | @runFail i j msg tn htn hj hpc =>
    refine inv_set hInv hj ?_
      (by rw [inTimed_inTable (inRun_inTimed hpc)]; rfl)
      (Or.inl fun _ => inTimed_holdsGate (inRun_inTimed hpc))
    have hojb := hInv.jobsOk j (List.get?_mem hj)
    obtain ⟨r, hr⟩ := pcOk_some_of_inTimed (jobOk_pcOk hojb) (inRun_inTimed hpc)
    have hrec := jobOk_recOk hojb hr
    simp [jobOkB, pcOkB, hr, hrec, errMsg_ne_empty htn]
  | @coverSaved i j r img hj hpc hr =>
    refine inv_set hInv hj ?_ (by rw [hpc]; rfl) (Or.inl fun _ => by rw [hpc]; rfl)
    have hojb := hInv.jobsOk j (List.get?_mem hj)
    simp [jobOkB, pcOkB, hpc, hr] at hojb
    have hs : r.status = Status.completed := by tauto
    have he : r.errorMessage = none := by tauto
    simp [jobOkB, pcOkB, recOkB, hs, he]
  | @coverFail i j hj hpc =>
    refine inv_set hInv hj ?_ (by rw [hpc]; rfl) (Or.inl fun _ => by rw [hpc]; rfl)
    have hojb := hInv.jobsOk j (List.get?_mem hj)
    cases hr : j.record with
    | none => simp [jobOkB, pcOkB, hpc, hr] at hojb
    | some r =>
      have hrec := jobOk_recOk hojb hr
      simp [jobOkB, pcOkB, hr, hrec]
  | @failWrite i j r m hj hpc hr =>
    refine inv_set hInv hj ?_ (by rw [hpc]; rfl) (Or.inl fun _ => by rw [hpc]; rfl)
    have hojb := hInv.jobsOk j (List.get?_mem hj)
    have hm : m ≠ "" := by
      have hp := jobOk_pcOk hojb
      rw [hpc, hr] at hp
      simpa [pcOkB] using hp
    simp [jobOkB, pcOkB, recOkB, hm]
  | @failWriteFail i j m hj hpc =>
    refine inv_set hInv hj ?_ (by rw [hpc]; rfl) (Or.inl fun _ => by rw [hpc]; rfl)
    have hojb := hInv.jobsOk j (List.get?_mem hj)
    cases hr : j.record with
    | none => simp [jobOkB, pcOkB, hpc, hr] at hojb
    | some r =>
      have hrec := jobOk_recOk hojb hr
      simp [jobOkB, pcOkB, hr, hrec]
  | @timeoutFire i j hj hpc =>
    refine inv_set hInv hj ?_
      (by rw [inTimed_inTable hpc]; rfl)
      (Or.inl fun _ => inTimed_holdsGate hpc)
    have hojb := hInv.jobsOk j (List.get?_mem hj)
    obtain ⟨r, hr⟩ := pcOk_some_of_inTimed (jobOk_pcOk hojb) hpc
    have hrec := jobOk_recOk hojb hr
    simp [jobOkB, pcOkB, hr, hrec]
  | @timeoutWrite i j r hj hpc hr =>
    refine inv_set hInv hj ?_ (by rw [hpc]; rfl) (Or.inl fun _ => by rw [hpc]; rfl)
    simp [jobOkB, pcOkB, recOkB]
  | @timeoutWriteFail i j hj hpc =>
    refine inv_set hInv hj ?_ (by rw [hpc]; rfl) (Or.inl fun _ => by rw [hpc]; rfl)
    have hojb := hInv.jobsOk j (List.get?_mem hj)
    cases hr : j.record with
    | none => simp [jobOkB, pcOkB, hpc, hr] at hojb
    | some r =>
      have hrec := jobOk_recOk hojb hr
      simp [jobOkB, pcOkB, hr, hrec]
  | @cancelFire i j hj htab hpc =>
    refine inv_set hInv hj ?_
      (by rw [inTimed_inTable hpc]; rfl)
      (Or.inl fun _ => inTimed_holdsGate hpc)
    have hojb := hInv.jobsOk j (List.get?_mem hj)
    obtain ⟨r, hr⟩ := pcOk_some_of_inTimed (jobOk_pcOk hojb) hpc
    have hrec := jobOk_recOk hojb hr
    simp [jobOkB, pcOkB, hr, hrec]
  | @cancelWrite i j r hj hpc hr =>
    refine inv_set hInv hj ?_ (by rw [hpc]; rfl) (Or.inl fun _ => by rw [hpc]; rfl)
    simp [jobOkB, pcOkB, recOkB]
  | @cancelWriteFail i j hj hpc =>
    refine inv_set hInv hj ?_ (by rw [hpc]; rfl) (Or.inl fun _ => by rw [hpc]; rfl)
    have hojb := hInv.jobsOk j (List.get?_mem hj)
    cases hr : j.record with
    | none => simp [jobOkB, pcOkB, hpc, hr] at hojb
    | some r =>
      have hrec := jobOk_recOk hojb hr
      simp [jobOkB, pcOkB, hr, hrec]
  | @taskFinish i j hj hpc =>
    refine inv_erase hInv hj ?_ rfl (fun h => by simp [PC.holdsGateB] at h)
    have hojb := hInv.jobsOk j (List.get?_mem hj)
    cases hr : j.record with
    | none => simp [jobOkB, pcOkB, hpc, hr] at hojb
    | some r =>
      have hrec := jobOk_recOk hojb hr
      simp [jobOkB, pcOkB, hr, hrec]

/-- The invariant holds initially. -/
theorem inv_init (covers : List Bool) : Inv (initSys covers) := by
  refine ⟨?_, ?_, List.nodup_nil, ?_⟩
  · intro j hj
    rcases List.mem_map.mp hj with ⟨c, _, rfl⟩
    simp [jobOkB, pcOkB]
  · show (List.map _ covers).countP _ ≤ semaphoreCapacity
    rw [List.countP_map]
    have : ∀ c ∈ covers,
        ¬ ((fun j => JobState.pc j |>.holdsGateB) ∘
          (fun c => ({ pc := PC.enhance, record := none, generateCover := c } : JobState))) c
          = true := by
      intro c _ h
      simp [PC.holdsGateB] at h
    rw [List.countP_eq_zero.mpr this]
    exact Nat.zero_le _
  · intro k
    constructor
    · intro h
      cases h
    · rintro ⟨j, hj, hin⟩
      have hjm : j ∈ (initSys covers).jobs := List.get?_mem hj
      rcases List.mem_map.mp hjm with ⟨c, _, rfl⟩
      simp [PC.inTableB] at hin

/-- Every reachable system state satisfies the invariant. -/
theorem reachable_inv {s : Sys} (hs : Reachable s) : Inv s := by
  rcases hs with ⟨covers, hsteps⟩
  induction hsteps with
  | refl => exact inv_init covers
  | tail _ hstep ih => exact inv_step ih hstep

/-! ## Stability of finished units of work -/

theorem inTimed_ne_finish {pc : PC} (h : pc.inTimedB = true) :
    pc ≠ PC.finishGate ∧ pc ≠ PC.finished := by
  constructor <;> rintro rfl <;> simp [PC.inTimedB] at h

theorem stable_of_ne_pc {s : Sys} {i k : Nat} {j j2 : JobState} (jX : JobState)
    (hj : s.jobs.get? k = some j) (hj2 : s.jobs.get? i = some j2)
    (hpc : j.pc = PC.finishGate ∨ j.pc = PC.finished)
    (hpcX : j2.pc ≠ PC.finishGate ∧ j2.pc ≠ PC.finished) :
    ∃ j', (s.jobs.set i jX).get? k = some j' ∧ j'.record = j.record ∧
      (j'.pc = PC.finishGate ∨ j'.pc = PC.finished) := by
  by_cases hik : i = k
  · subst hik
    rw [hj2] at hj
    cases hj
    rcases hpc with h | h
    · exact absurd h hpcX.1
    · exact absurd h hpcX.2
  · refine ⟨j, ?_, rfl, hpc⟩
    rw [get?_set_ne _ _ hik]
    exact hj

/-- Once a unit of work is at `finishGate` or `finished`, no scheduler
step changes its record, and it stays at `finishGate`/`finished`. -/
theorem step_record_stable {s s' : Sys} (h : Step s s') {k : Nat} {j : JobState}
    (hj : s.jobs.get? k = some j)
    (hpc : j.pc = PC.finishGate ∨ j.pc = PC.finished) :
    ∃ j', s'.jobs.get? k = some j' ∧ j'.record = j.record ∧
      (j'.pc = PC.finishGate ∨ j'.pc = PC.finished) := by
  cases h with
  | @enhanceDone i j2 hj2 hpc2 =>
    exact stable_of_ne_pc _ hj hj2 hpc (by rw [hpc2]; exact ⟨by decide, by decide⟩)
  | @lyricsDone i j2 hj2 hpc2 =>
    exact stable_of_ne_pc _ hj hj2 hpc (by rw [hpc2]; exact ⟨by decide, by decide⟩)
  | @persistDone i j2 hj2 hpc2 =>
    exact stable_of_ne_pc _ hj hj2 hpc (by rw [hpc2]; exact ⟨by decide, by decide⟩)
  | @gateAcquire i j2 hj2 hpc2 hcap =>
    exact stable_of_ne_pc _ hj hj2 hpc (by rw [hpc2]; exact ⟨by decide, by decide⟩)
  | @cancelAtGate i j2 hj2 hpc2 htab =>
    exact stable_of_ne_pc _ hj hj2 hpc (by rw [hpc2]; exact ⟨by decide, by decide⟩)
  | @proc10 i j2 r hj2 hpc2 hr =>
    exact stable_of_ne_pc _ hj hj2 hpc (by rw [hpc2]; exact ⟨by decide, by decide⟩)
  | @proc30 i j2 r hj2 hpc2 hr =>
    exact stable_of_ne_pc _ hj hj2 hpc (by rw [hpc2]; exact ⟨by decide, by decide⟩)
  | @backendDone i j2 hj2 hpc2 =>
    exact stable_of_ne_pc _ hj hj2 hpc (by rw [hpc2]; exact ⟨by decide, by decide⟩)
  | @audioSaved i j2 hj2 hpc2 =>
    exact stable_of_ne_pc _ hj hj2 hpc (by rw [hpc2]; exact ⟨by decide, by decide⟩)
  | @progress70 i j2 r hj2 hpc2 hr =>
    exact stable_of_ne_pc _ hj hj2 hpc (by rw [hpc2]; exact ⟨by decide, by decide⟩)
  | @completedWrite i j2 r fname hj2 hpc2 hr =>
    exact stable_of_ne_pc _ hj hj2 hpc (by rw [hpc2]; exact ⟨by decide, by decide⟩)
  | @fetchSome i j2 hj2 hpc2 =>
    exact stable_of_ne_pc _ hj hj2 hpc (by rw [hpc2]; exact ⟨by decide, by decide⟩)
  | @fetchNone i j2 hj2 hpc2 =>
    exact stable_of_ne_pc _ hj hj2 hpc (by rw [hpc2]; exact ⟨by decide, by decide⟩)
  | @runFail i j2 msg tn htn hj2 hpc2 =>
    exact stable_of_ne_pc _ hj hj2 hpc (inTimed_ne_finish (inRun_inTimed hpc2))
  | @coverSaved i j2 r img hj2 hpc2 hr =>
    exact stable_of_ne_pc _ hj hj2 hpc (by rw [hpc2]; exact ⟨by decide, by decide⟩)
  | @coverFail i j2 hj2 hpc2 =>
    exact stable_of_ne_pc _ hj hj2 hpc (by rw [hpc2]; exact ⟨by decide, by decide⟩)
  | @failWrite i j2 r m hj2 hpc2 hr =>
    exact stable_of_ne_pc _ hj hj2 hpc (by rw [hpc2]; exact ⟨by simp, by simp⟩)
  | @failWriteFail i j2 m hj2 hpc2 =>
    exact stable_of_ne_pc _ hj hj2 hpc (by rw [hpc2]; exact ⟨by simp, by simp⟩)
  | @timeoutFire i j2 hj2 hpc2 =>
    exact stable_of_ne_pc _ hj hj2 hpc (inTimed_ne_finish hpc2)
  | @timeoutWrite i j2 r hj2 hpc2 hr =>
    exact stable_of_ne_pc _ hj hj2 hpc (by rw [hpc2]; exact ⟨by decide, by decide⟩)
  | @timeoutWriteFail i j2 hj2 hpc2 =>
    exact stable_of_ne_pc _ hj hj2 hpc (by rw [hpc2]; exact ⟨by decide, by decide⟩)
  | @cancelFire i j2 hj2 htab hpc2 =>
    exact stable_of_ne_pc _ hj hj2 hpc (inTimed_ne_finish hpc2)
  | @cancelWrite i j2 r hj2 hpc2 hr =>
    exact stable_of_ne_pc _ hj hj2 hpc (by rw [hpc2]; exact ⟨by decide, by decide⟩)
  | @cancelWriteFail i j2 hj2 hpc2 =>
    exact stable_of_ne_pc _ hj hj2 hpc (by rw [hpc2]; exact ⟨by decide, by decide⟩)
  | @taskFinish i j2 hj2 hpc2 =>
    by_cases hik : i = k
    · subst hik
      rw [hj2] at hj
      cases hj
      exact ⟨_, get?_set_self _ _ _ _ hj2, rfl, Or.inr rfl⟩
    · refine ⟨j, ?_, rfl, hpc⟩
      show (s.jobs.set i _).get? k = some j
      rw [get?_set_ne _ _ hik]
      exact hj

/-- `step_record_stable`, extended along any number of scheduler
steps. -/
theorem rtg_record_stable {s s' : Sys} (h : Relation.ReflTransGen Step s s')
    {k : Nat} {j : JobState} (hj : s.jobs.get? k = some j)
    (hpc : j.pc = PC.finishGate ∨ j.pc = PC.finished) :
    ∃ j', s'.jobs.get? k = some j' ∧ j'.record = j.record ∧
      (j'.pc = PC.finishGate ∨ j'.pc = PC.finished) := by
  induction h with
  | refl => exact ⟨j, hj, rfl, hpc⟩
  | tail _ hstep ih =>
    obtain ⟨j1, hj1, hrec1, hpc1⟩ := ih
    obtain ⟨j2, hj2, hrec2, hpc2⟩ := step_record_stable hstep hj1 hpc1
    exact ⟨j2, hj2, hrec2.trans hrec1, hpc2⟩

/-! ## Claim C9 — error-message truncation and fallback -/

/-- C9 counterexample: the claim states that every background unit of
work falls back to the exception's type name when the exception message
is empty.  The legacy background runner
(`generation.py` line 156) persists `str(exc)[:500]` with no fallback:
for an exception of type `ZeroDivisionError` whose message is empty, it
persists the empty string, not the (truncated) type name. -/
theorem c9_counterexample :
    errMsgLegacy "" = "" ∧ errMsgLegacy "" ≠ truncate500 "ZeroDivisionError" := by
  exact ⟨rfl, by decide⟩

/-- C9 (amended): in the orchestrator (`music_generation.py` line 343)
the persisted `error_message` is the exception's message truncated to at
most 500 characters, falling back to the exception's type name (also
truncated) when the message is empty; the legacy service
(`generation.py` line 156) persists the truncated message with no
type-name fallback. -/
theorem c9_error_message (msg tn : String) :
    (msg ≠ "" → errMsg msg tn = truncate500 msg) ∧
    (msg = "" → errMsg msg tn = truncate500 tn) ∧
    (errMsg msg tn).length ≤ 500 ∧
    errMsgLegacy msg = truncate500 msg := by
  refine ⟨?_, ?_, ?_, rfl⟩
  · intro h
    unfold errMsg
    rw [if_neg h]
  · intro h
    unfold errMsg
    rw [if_pos h]
  · exact truncate500_length_le _

/-- C9 witness: both branches of the amended statement at concrete
messages. -/
theorem c9_witness :
    errMsg "boom" "RuntimeError" = truncate500 "boom" ∧
    errMsg "" "RuntimeError" = truncate500 "RuntimeError" :=
  ⟨(c9_error_message "boom" "RuntimeError").1 (by decide),
   (c9_error_message "" "RuntimeError").2.1 rfl⟩

/-! ## Claim C6 — router fallback and failure -/

/-- C6 counterexample: the claim states that a router with neither a
specific nor a default entry fails rather than returning some arbitrary
registered backend.  The music router (`manager.py` lines 236-238) with
an empty route table but one registered provider returns that provider
instead of failing. -/
theorem c6_counterexample :
    get_music_provider ([] : List (String × String))
      [("hf:musicgen-small", "musicgen-backend")] = Except.ok "musicgen-backend" := rfl

/-- C6 (amended): the LLM router resolves an unknown task tag exactly
like the `"default"` tag and fails with a not-found error when no
provider is registered under the resolved route; the music router
resolves only the `"default"` route and, when no provider is registered
under it, falls back to the first registered provider, failing only when
the registry is empty. -/
theorem c6_router {P : Type} (llmRouter : List (String × String))
    (llmProviders : List (String × P)) (task : String)
    (musicRouter : List (String × String))
    (musicProviders : List (String × P)) :
    (lookupA llmRouter task = none →
      get_llm_provider llmRouter llmProviders task
        = get_llm_provider llmRouter llmProviders "default") ∧
    (lookupA llmProviders
        (parse_route ((lookupA llmRouter task).getD
          ((lookupA llmRouter "default").getD ""))).1 = none →
      ∃ e, get_llm_provider llmRouter llmProviders task = Except.error e) ∧
    (lookupA musicProviders ((lookupA musicRouter "default").getD "") = none →
      (musicProviders = [] →
        ∃ e, get_music_provider musicRouter musicProviders = Except.error e) ∧
      (∀ kv t, musicProviders = kv :: t →
        get_music_provider musicRouter musicProviders = Except.ok kv.2)) := by
  refine ⟨?_, ?_, ?_⟩
  · intro h
    cases hd : lookupA llmRouter "default" <;>
      simp [get_llm_provider, h, hd]
  · intro h
    simp only [get_llm_provider, h]
    exact ⟨_, rfl⟩
  · intro h
    constructor
    · intro h0
      simp only [get_music_provider, h, h0]
      exact ⟨_, rfl⟩
    · intro kv t heq
      rw [heq] at h
      simp only [get_music_provider, heq, h]

/-- C6 witness: the amended statement at a concrete router
configuration. -/
theorem c6_witness :
    get_llm_provider [("default", "ollama:llama3")] [("ollama", "OP")] "lyrics"
      = get_llm_provider [("default", "ollama:llama3")] [("ollama", "OP")] "default" ∧
    get_music_provider [("other", "x")] [("hf:small", "MP")] = Except.ok "MP" := by
  have h := c6_router [("default", "ollama:llama3")] [("ollama", "OP")] "lyrics"
    [("other", "x")] [("hf:small", "MP")]
  exact ⟨h.1 (by decide), (h.2.2 (by decide)).2 ("hf:small", "MP") [] rfl⟩

/-! ## Claim C8 — extend lineage -/

/-- A concrete parent record used in the C8 counterexample and
witness. -/
def parentGen : Generation :=
  { id := 7, task_id := "tok-parent", status := "completed",
    prompt := "rock song", enhanced_prompt := none, lyrics := some "la la",
    genre := some "rock", mood := some "sad", duration := 30,
    title := some "Anthem", tempo := some 120, musical_key := some "C",
    instruments := some ["guitar"], language := some "en", instrumental := 0,
    parent_id := none, parent_type := none }

/-- C8 counterexample: the claim states that, when the prompt is
absent, the child uses exactly the parent's prompt.
`extend_generation` (`music_generation.py` line 154) appends
`" (continuation)"` instead. -/
theorem c8_counterexample :
    (extend_generation [parentGen] 7 none none 60 8 "tok-child" none).map
      (fun g => g.prompt) = some "rock song (continuation)" ∧
    some "rock song (continuation)" ≠ some parentGen.prompt := by
  constructor
  · rfl
  · decide

/-- C8 (amended): `extend_generation` fails (raises `ValueError`) when
no record with the parent id exists; otherwise it creates a `pending`
child inheriting the parent's genre, mood, title, tempo, musical key,
instruments, language (defaulted to "en") and instrumental flag, using
the supplied prompt or — when it is absent — the parent's prompt with
`" (continuation)"` appended, the supplied lyrics or the parent's
lyrics, and lineage kind `extend` with the parent's id. -/
theorem c8_extend (repo : List Generation) (gid : Nat)
    (prompt lyrics : Option String) (duration : ℚ) (newId : Nat)
    (newTaskId : String) (enhanced : Option String) :
    (get_by_id repo gid = none →
      extend_generation repo gid prompt lyrics duration newId newTaskId enhanced
        = none) ∧
    (∀ parent, get_by_id repo gid = some parent →
      ∃ child,
        extend_generation repo gid prompt lyrics duration newId newTaskId enhanced
          = some child ∧
        child.status = "pending" ∧
        child.genre = parent.genre ∧
        child.mood = parent.mood ∧
        child.title = parent.title ∧
        child.tempo = parent.tempo ∧
        child.musical_key = parent.musical_key ∧
        child.instruments = parent.instruments ∧
        child.language = some (pyOrS parent.language "en") ∧
        (child.instrumental ≠ 0 ↔ parent.instrumental ≠ 0) ∧
        child.prompt = pyOrS prompt (parent.prompt ++ " (continuation)") ∧
        child.lyrics = pyOrOpt lyrics parent.lyrics ∧
        child.duration = duration ∧
        child.parent_id = some parent.id ∧
        child.parent_type = some "extend") := by
  constructor
  · intro h
    unfold extend_generation
    rw [h]
  · intro parent hp
    unfold extend_generation
    rw [hp]
    refine ⟨_, rfl, rfl, rfl, rfl, rfl, rfl, rfl, rfl, rfl, ?_, rfl, rfl, rfl, rfl, rfl⟩
    by_cases h0 : parent.instrumental = 0 <;>
      simp [createGenerationRecord, h0]

/-- C8 witness: the amended statement at a concrete parent, both for a
missing parent and for an existing one. -/
theorem c8_witness :
    extend_generation [parentGen] 3 none none 60 8 "tok-child" none = none ∧
    (∃ child,
      extend_generation [parentGen] 7 (some "heavier") none 60 8 "tok-child" none
        = some child ∧
      child.status = "pending" ∧
      child.genre = parentGen.genre) := by
  constructor
  · exact (c8_extend [parentGen] 3 none none 60 8 "tok-child" none).1 (by decide)
  · obtain ⟨c, hc, hst, hg, _⟩ :=
      (c8_extend [parentGen] 7 (some "heavier") none 60 8 "tok-child" none).2
        parentGen (by decide)
    exact ⟨c, hc, hst, hg⟩

/-! ## Claim C4 — vocal/instrumental mixing -/

/-- C4: for decodable (non-degenerate) inputs — positive sample rates
and a non-empty instrumental buffer — `VocalInstrumentalPipeline`
decodes to mono, resamples the lower-rate track up to
`max(sr_i, sr_v)`, zero-pads, forms `instrumental*0.5 + vocal*0.7`,
divides by the peak exactly when it exceeds 1 (so the output peak is
≤ 1 and the output equals the weighted sum whenever its peak is ≤ 1),
returns the buffer at the max sample rate, and reports the max of the
two durations. -/
theorem c4_mixing (iF : List (List ℚ)) (srA : Nat) (vF : List (List ℚ))
    (srB : Nat) (dI dV : ℚ) (hA : 0 < srA) (hB : 0 < srB) (hne : iF ≠ []) :
    (VocalInstrumentalPipeline.run ⟨iF, srA, dI⟩ ⟨vF, srB, dV⟩).sample_rate
      = max srA srB ∧
    (VocalInstrumentalPipeline.run ⟨iF, srA, dI⟩ ⟨vF, srB, dV⟩).duration
      = max dI dV ∧
    peakOf (VocalInstrumentalPipeline.run ⟨iF, srA, dI⟩ ⟨vF, srB, dV⟩).samples ≤ 1 ∧
    (peakOf (specWeightedSum iF srA vF srB) ≤ 1 →
      (VocalInstrumentalPipeline.run ⟨iF, srA, dI⟩ ⟨vF, srB, dV⟩).samples
        = specWeightedSum iF srA vF srB) ∧
    (1 < peakOf (specWeightedSum iF srA vF srB) →
      (VocalInstrumentalPipeline.run ⟨iF, srA, dI⟩ ⟨vF, srB, dV⟩).samples
        = (specWeightedSum iF srA vF srB).map
            (fun x => x / peakOf (specWeightedSum iF srA vF srB))) := by
  have hmix : (VocalInstrumentalPipeline.run ⟨iF, srA, dI⟩ ⟨vF, srB, dV⟩).samples
      = (if 1 < peakOf (specWeightedSum iF srA vF srB)
         then (specWeightedSum iF srA vF srB).map
           (fun x => x / peakOf (specWeightedSum iF srA vF srB))
         else specWeightedSum iF srA vF srB) := rfl
  refine ⟨rfl, rfl, ?_, ?_, ?_⟩
  · rw [hmix]
    exact peakOf_le_one_of_normalized (specWeightedSum iF srA vF srB)
  · intro h
    rw [hmix, if_neg (not_lt.mpr h)]
  · intro h
    rw [hmix, if_pos h]

/-- C4 witness: a 2-sample mono instrumental and a 4-sample mono vocal,
both at 2 Hz. -/
theorem c4_witness :
    (VocalInstrumentalPipeline.run ⟨[[1], [1]], 2, 1⟩
      ⟨[[0], [0], [0], [0]], 2, 2⟩).sample_rate = max 2 2 ∧
    (VocalInstrumentalPipeline.run ⟨[[1], [1]], 2, 1⟩
      ⟨[[0], [0], [0], [0]], 2, 2⟩).duration = max 1 2 ∧
    (VocalInstrumentalPipeline.run ⟨[[1], [1]], 2, 1⟩
      ⟨[[0], [0], [0], [0]], 2, 2⟩).samples
      = specWeightedSum [[1], [1]] 2 [[0], [0], [0], [0]] 2 := by
  have h := c4_mixing [[1], [1]] 2 [[0], [0], [0], [0]] 2 1 2
    (by decide) (by decide) (by simp)
  refine ⟨h.1, h.2.1, h.2.2.2.1 ?_⟩
  norm_num [specWeightedSum, resampleTrack, toMono, padTo, peakOf,
    List.replicate_succ, abs_of_nonneg]

/-! ## Claim C5 — `failed` iff `error_message` set -/

/-- C5: in every reachable orchestrator state, a persisted job record
has status `failed` exactly when `error_message` is set, and every set
error message is non-empty (each of the three `failed` transitions —
generation exception, timeout, cancellation — writes a non-empty
message, and no other update writes one). -/
theorem c5_failed_iff_error {s : Sys} (hs : Reachable s) {i : Nat}
    {j : JobState} {r : JobRec} (hj : s.jobs.get? i = some j)
    (hr : j.record = some r) :
    (r.status = Status.failed ↔ r.errorMessage.isSome = true) ∧
    (∀ m, r.errorMessage = some m → m ≠ "") := by
  have hInv := reachable_inv hs
  have hrec := jobOk_recOk (hInv.jobsOk j (List.get?_mem hj)) hr
  simp only [recOkB, Bool.and_eq_true] at hrec
  obtain ⟨h1, h2⟩ := hrec
  rw [beq_iff_eq] at h1
  constructor
  · constructor
    · intro h
      rw [← h1, h]
      simp
    · intro h
      rw [h] at h1
      exact beq_iff_eq.mp h1
  · intro m hm
    simpa [hm] using h2

/-! ## Claim C3 — timeout handling -/

/-- C3: the timeout is 30 minutes, and from every reachable state in
which a unit of work is anywhere inside the `asyncio.wait_for` region,
the timeout transition is enabled: it cancels the inner work (jumps to
the `TimeoutError` handler), the handler persists `failed` with message
"Generation timed out", and the finishing unit of work is removed from
the running-task table. -/
theorem c3_timeout {s : Sys} (hs : Reachable s) {i : Nat} {j : JobState}
    {r : JobRec} (hj : s.jobs.get? i = some j) (hpc : j.pc.inTimedB = true)
    (hr : j.record = some r) :
    _GENERATION_TIMEOUT = 30 * 60 ∧
    ∃ s₁ s₂ s₃, Step s s₁ ∧ Step s₁ s₂ ∧ Step s₂ s₃ ∧
      (∃ j₂, s₂.jobs.get? i = some j₂ ∧
        j₂.record = some { r with status := Status.failed,
                                  errorMessage := some "Generation timed out",
                                  progress := 0 }) ∧
      i ∉ s₃.table := by
  have hInv := reachable_inv hs
  refine ⟨rfl, ?_⟩
  let jT : JobState := { j with pc := PC.timeoutHandler }
  let rF : JobRec := { r with
    status := Status.failed,
    errorMessage := some "Generation timed out",
    progress := 0 }
  let jF : JobState := { jT with pc := PC.finishGate, record := some rF }
  have hstep1 : Step s { s with jobs := s.jobs.set i jT } :=
    Step.timeoutFire i hj hpc
  have hj1 : (s.jobs.set i jT).get? i = some jT := get?_set_self _ _ _ _ hj
  have hstep2 : Step { s with jobs := s.jobs.set i jT }
      { s with jobs := (s.jobs.set i jT).set i jF } :=
    Step.timeoutWrite i hj1 rfl hr
  have hj2 : ((s.jobs.set i jT).set i jF).get? i = some jF :=
    get?_set_self _ _ _ _ hj1
  have hstep3 : Step { s with jobs := (s.jobs.set i jT).set i jF }
      { s with
        jobs := ((s.jobs.set i jT).set i jF).set i { jF with pc := PC.finished },
        table := s.table.erase i } :=
    Step.taskFinish i hj2 rfl
  refine ⟨_, _, _, hstep1, hstep2, hstep3, ⟨jF, hj2, rfl⟩, ?_⟩
  exact hInv.nodupTable.not_mem_erase

/-! ## Claim C2 — cover-art failure isolation -/

/-- C2: whenever a unit of work is inside the cover-art enrichment
(`_generate_cover_art`'s `try`), its record is already `completed` with
`error_message` and `cover_art_path` unset, the absorbed-failure
transition leaves the record untouched, and the record never changes
afterwards — enrichment failure never transitions the job to
`failed`. -/
theorem c2_cover_failure {s : Sys} (hs : Reachable s) {i : Nat}
    {j : JobState} (hj : s.jobs.get? i = some j) (hpc : j.pc = PC.coverArt) :
    ∃ r, j.record = some r ∧
      r.status = Status.completed ∧ r.errorMessage = none ∧
      r.coverArtPath = none ∧
      ∃ s', Step s s' ∧
        (∃ j', s'.jobs.get? i = some j' ∧ j'.record = some r ∧
          j'.pc = PC.finishGate) ∧
        ∀ s'', Relation.ReflTransGen Step s' s'' →
          ∃ j'', s''.jobs.get? i = some j'' ∧ j''.record = some r := by
  have hInv := reachable_inv hs
  have hojb := hInv.jobsOk j (List.get?_mem hj)
  cases hr : j.record with
  | none => simp [jobOkB, pcOkB, hpc, hr] at hojb
  | some r =>
    have hp := jobOk_pcOk hojb
    rw [hpc, hr] at hp
    simp only [pcOkB, Bool.and_eq_true, beq_iff_eq, Option.isNone_iff_eq_none] at hp
    obtain ⟨⟨⟨hst, herr⟩, hcov⟩, _⟩ := hp
    refine ⟨r, rfl, hst, herr, hcov, ?_⟩
    have hstep : Step s _ := Step.coverFail i hj hpc
    have hj' : (s.jobs.set i { j with pc := PC.finishGate }).get? i
        = some { j with pc := PC.finishGate } := get?_set_self _ _ _ _ hj
    refine ⟨_, hstep, ⟨_, hj', hr, rfl⟩, ?_⟩
    intro s'' hs''
    obtain ⟨j'', hj'', hrec'', _⟩ := rtg_record_stable hs'' hj' (Or.inl rfl)
    exact ⟨j'', hj'', by rw [hrec'']; exact hr⟩

/-! ## Claim C10 — cancellation while queued at the gate -/

/-- C10: for a job whose background task is still waiting to acquire
the semaphore (status `pending`), `cancel_task` returns `True`;
the `CancelledError` is raised at the acquisition point, outside the
`try` block, so the task terminates and its token is removed from the
running-task table with no status update: the record stays `pending`
with no error message forever, never becoming `failed` with a
cancellation message. -/
theorem c10_cancel_at_gate {s : Sys} (hs : Reachable s) {i : Nat}
    {j : JobState} (hj : s.jobs.get? i = some j) (hpc : j.pc = PC.waitGate) :
    cancel_task s i = true ∧
    ∃ r, j.record = some r ∧ r.status = Status.pending ∧
      r.errorMessage = none ∧
      ∃ s', Step s s' ∧
        (∃ j', s'.jobs.get? i = some j' ∧ j'.pc = PC.finished ∧
          j'.record = some r) ∧
        i ∉ s'.table ∧
        ∀ s'', Relation.ReflTransGen Step s' s'' →
          ∃ j'', s''.jobs.get? i = some j'' ∧ j''.record = some r := by
  have hInv := reachable_inv hs
  have htab : i ∈ s.table :=
    (hInv.tableOk i).mpr ⟨j, hj, by rw [hpc]; rfl⟩
  have hojb := hInv.jobsOk j (List.get?_mem hj)
  refine ⟨by simpa [cancel_task] using htab, ?_⟩
  cases hr : j.record with
  | none => simp [jobOkB, pcOkB, hpc, hr] at hojb
  | some r =>
    have hp := jobOk_pcOk hojb
    rw [hpc, hr] at hp
    simp only [pcOkB, Bool.and_eq_true, beq_iff_eq, Option.isNone_iff_eq_none] at hp
    obtain ⟨⟨⟨hst, herr⟩, _⟩, _⟩ := hp
    refine ⟨r, rfl, hst, herr, ?_⟩
    have hstep : Step s _ := Step.cancelAtGate i hj hpc htab
    have hj' : (s.jobs.set i { j with pc := PC.finished }).get? i
        = some { j with pc := PC.finished } := get?_set_self _ _ _ _ hj
    refine ⟨_, hstep, ⟨_, hj', rfl, hr⟩, hInv.nodupTable.not_mem_erase, ?_⟩
    intro s'' hs''
    obtain ⟨j'', hj'', hrec'', _⟩ := rtg_record_stable hs'' hj' (Or.inr rfl)
    exact ⟨j'', hj'', by rw [hrec'']; exact hr⟩

/-! ## Claim C1 — gate bound and queued jobs -/

theorem countP_mono {α : Type} (l : List α) {p q : α → Bool}
    (h : ∀ a ∈ l, p a = true → q a = true) : l.countP p ≤ l.countP q := by
  induction l with
  | nil => exact le_refl 0
  | cons x t ih =>
    simp only [List.countP_cons]
    have ht := ih (fun a ha => h a (List.mem_cons_of_mem x ha))
    by_cases hx : p x = true
    · rw [if_pos hx, if_pos (h x (List.mem_cons_self x t) hx)]
      omega
    · rw [if_neg hx]
      split <;> omega

theorem inTimed_ne_waitGate {pc : PC} (h : pc.inTimedB = true) :
    pc ≠ PC.waitGate := by
  rintro rfl
  simp [PC.inTimedB] at h

/-- Inversion helper: a step of some job `k` cannot move a different
job `i` away from `waitGate`, and cannot move job `i` itself if its own
program counter is not `waitGate`. -/
theorem waitgate_aux {s : Sys} {i k : Nat} {j j2 j' : JobState} (jX : JobState)
    (hj : s.jobs.get? i = some j) (hpc : j.pc = PC.waitGate)
    (hj2 : s.jobs.get? k = some j2) (hpcne : j2.pc ≠ PC.waitGate)
    (hj' : (s.jobs.set k jX).get? i = some j') (hne : j'.pc ≠ PC.waitGate) :
    False := by
  by_cases hik : k = i
  · subst hik
    rw [hj] at hj2
    cases hj2
    exact hpcne hpc
  · rw [get?_set_ne _ _ hik, hj] at hj'
    cases hj'
    exact hne hpc

/-- C1 (amended): the gate capacity is 2; in every reachable state at
most 2 jobs are executing the backend `generate` call; a job queued at
the gate still has status `pending` (the `processing` update happens
only inside the gate); and a queued job leaves the gate-wait only by
being cancelled or by acquiring a slot when fewer than 2 jobs hold the
gate. -/
theorem c1_gate_bound {s : Sys} (hs : Reachable s) :
    semaphoreCapacity = 2 ∧
    countBackend s ≤ 2 ∧
    (∀ i j, s.jobs.get? i = some j → j.pc = PC.waitGate →
      ∃ r, j.record = some r ∧ r.status = Status.pending) ∧
    (∀ s' i j j', Step s s' → s.jobs.get? i = some j → j.pc = PC.waitGate →
      s'.jobs.get? i = some j' → j'.pc ≠ PC.waitGate →
      j'.pc = PC.finished ∨ (j'.pc = PC.updProc10 ∧ countHolders s < 2)) := by
  have hInv := reachable_inv hs
  refine ⟨rfl, ?_, ?_, ?_⟩
  · have hmono : ∀ a ∈ s.jobs, (a.pc == PC.backend) = true → a.pc.holdsGateB = true := by
      intro a _ h
      rw [beq_iff_eq] at h
      rw [h]
      rfl
    exact le_trans (countP_mono s.jobs hmono) hInv.gate
  · intro i j hj hpc
    have hojb := hInv.jobsOk j (List.get?_mem hj)
    cases hr : j.record with
    | none => simp [jobOkB, pcOkB, hpc, hr] at hojb
    | some r =>
      have hp := jobOk_pcOk hojb
      rw [hpc, hr] at hp
      simp only [pcOkB, Bool.and_eq_true, beq_iff_eq] at hp
      exact ⟨r, rfl, hp.1.1.1⟩
  · intro s' i j j' hstep hj hpc hj' hne
    cases hstep with
    | @enhanceDone k j2 hj2 hpc2 =>
      exact (waitgate_aux _ hj hpc hj2 (by rw [hpc2]; decide) hj' hne).elim
    | @lyricsDone k j2 hj2 hpc2 =>
      exact (waitgate_aux _ hj hpc hj2 (by rw [hpc2]; decide) hj' hne).elim
    | @persistDone k j2 hj2 hpc2 =>
      exact (waitgate_aux _ hj hpc hj2 (by rw [hpc2]; decide) hj' hne).elim
    | @gateAcquire k j2 hj2 hpc2 hcap =>
      by_cases hik : k = i
      · subst hik
        rw [hj] at hj2
        cases hj2
        rw [get?_set_self _ _ _ _ hj] at hj'
        cases hj'
        exact Or.inr ⟨rfl, hcap⟩
      · rw [get?_set_ne _ _ hik, hj] at hj'
        cases hj'
        exact absurd hpc hne
    | @cancelAtGate k j2 hj2 hpc2 htab =>
      replace hj' : (s.jobs.set k { j2 with pc := PC.finished }).get? i = some j' := hj'
      by_cases hik : k = i
      · subst hik
        rw [hj] at hj2
        cases hj2
        rw [get?_set_self _ _ _ _ hj] at hj'
        cases hj'
        exact Or.inl rfl
      · rw [get?_set_ne _ _ hik, hj] at hj'
        cases hj'
        exact absurd hpc hne
    | @proc10 k j2 r hj2 hpc2 hr =>
      exact (waitgate_aux _ hj hpc hj2 (by rw [hpc2]; decide) hj' hne).elim
    | @proc30 k j2 r hj2 hpc2 hr =>
      exact (waitgate_aux _ hj hpc hj2 (by rw [hpc2]; decide) hj' hne).elim
    | @backendDone k j2 hj2 hpc2 =>
      exact (waitgate_aux _ hj hpc hj2 (by rw [hpc2]; decide) hj' hne).elim
    | @audioSaved k j2 hj2 hpc2 =>
      exact (waitgate_aux _ hj hpc hj2 (by rw [hpc2]; decide) hj' hne).elim
    | @progress70 k j2 r hj2 hpc2 hr =>
      exact (waitgate_aux _ hj hpc hj2 (by rw [hpc2]; decide) hj' hne).elim
    | @completedWrite k j2 r fname hj2 hpc2 hr =>
      exact (waitgate_aux _ hj hpc hj2 (by rw [hpc2]; decide) hj' hne).elim
    | @fetchSome k j2 hj2 hpc2 =>
      exact (waitgate_aux _ hj hpc hj2 (by rw [hpc2]; decide) hj' hne).elim
    | @fetchNone k j2 hj2 hpc2 =>
      exact (waitgate_aux _ hj hpc hj2 (by rw [hpc2]; decide) hj' hne).elim
    | @runFail k j2 msg tn htn hj2 hpc2 =>
      exact (waitgate_aux _ hj hpc hj2
        (inTimed_ne_waitGate (inRun_inTimed hpc2)) hj' hne).elim
    | @coverSaved k j2 r img hj2 hpc2 hr =>
      exact (waitgate_aux _ hj hpc hj2 (by rw [hpc2]; decide) hj' hne).elim
    | @coverFail k j2 hj2 hpc2 =>
      exact (waitgate_aux _ hj hpc hj2 (by rw [hpc2]; decide) hj' hne).elim
    | @failWrite k j2 r m hj2 hpc2 hr =>
      exact (waitgate_aux _ hj hpc hj2 (by rw [hpc2]; simp) hj' hne).elim
    | @failWriteFail k j2 m hj2 hpc2 =>
      exact (waitgate_aux _ hj hpc hj2 (by rw [hpc2]; simp) hj' hne).elim
    | @timeoutFire k j2 hj2 hpc2 =>
      exact (waitgate_aux _ hj hpc hj2 (inTimed_ne_waitGate hpc2) hj' hne).elim
    | @timeoutWrite k j2 r hj2 hpc2 hr =>
      exact (waitgate_aux _ hj hpc hj2 (by rw [hpc2]; decide) hj' hne).elim
    | @timeoutWriteFail k j2 hj2 hpc2 =>
      exact (waitgate_aux _ hj hpc hj2 (by rw [hpc2]; decide) hj' hne).elim
    | @cancelFire k j2 hj2 htab hpc2 =>
      exact (waitgate_aux _ hj hpc hj2 (inTimed_ne_waitGate hpc2) hj' hne).elim
    | @cancelWrite k j2 r hj2 hpc2 hr =>
      exact (waitgate_aux _ hj hpc hj2 (by rw [hpc2]; decide) hj' hne).elim
    | @cancelWriteFail k j2 hj2 hpc2 =>
      exact (waitgate_aux _ hj hpc hj2 (by rw [hpc2]; decide) hj' hne).elim
    | @taskFinish k j2 hj2 hpc2 =>
      replace hj' : (s.jobs.set k { j2 with pc := PC.finished }).get? i = some j' := hj'
      by_cases hik : k = i
      · subst hik
        rw [hj] at hj2
        cases hj2
        rw [hpc] at hpc2
        cases hpc2
      · rw [get?_set_ne _ _ hik, hj] at hj'
        cases hj'
        exact absurd hpc hne

/-! ## Claim C7 — extent of the gate-held region -/

/-- Inversion helper: a step whose target job still holds the gate
cannot be the one that released job `i`'s slot. -/
theorem hold_keep_aux {s : Sys} {i k : Nat} {j j' j2 : JobState} (jX : JobState)
    (hj2 : s.jobs.get? k = some j2)
    (hj : s.jobs.get? i = some j)
    (hj' : (s.jobs.set k jX).get? i = some j')
    (hT : j.pc.holdsGateB = true) (hF : j'.pc.holdsGateB = false)
    (hX : jX.pc.holdsGateB = true) : False := by
  by_cases hik : k = i
  · subst hik
    rw [get?_set_self _ _ _ _ hj2] at hj'
    cases hj'
    rw [hX] at hF
    cases hF
  · rw [get?_set_ne _ _ hik, hj] at hj'
    cases hj'
    rw [hT] at hF
    cases hF

/-- Inversion helper: a step whose source job holds no gate slot cannot
be the one that released job `i`'s slot. -/
theorem hold_src_aux {s : Sys} {i k : Nat} {j j' j2 : JobState} (jX : JobState)
    (hj2 : s.jobs.get? k = some j2)
    (hj : s.jobs.get? i = some j)
    (hj' : (s.jobs.set k jX).get? i = some j')
    (hT : j.pc.holdsGateB = true) (hF : j'.pc.holdsGateB = false)
    (hsrc : j2.pc.holdsGateB = false) : False := by
  by_cases hik : k = i
  · subst hik
    rw [hj] at hj2
    cases hj2
    rw [hT] at hsrc
    cases hsrc
  · rw [get?_set_ne _ _ hik, hj] at hj'
    cases hj'
    rw [hT] at hF
    cases hF

/-- C7 (amended): prompt enhancement and lyric generation run before
the gate is acquired — a job at those stages holds no gate slot and has
not even persisted its record — but cover-art enrichment runs while the
gate slot is still held; a gate slot is released only when the unit of
work finishes. -/
theorem c7_gate_extent {s : Sys} (hs : Reachable s) :
    (∀ i j, s.jobs.get? i = some j →
      (j.pc = PC.enhance ∨ j.pc = PC.lyricsGen) →
      j.pc.holdsGateB = false ∧ j.record = none) ∧
    (∀ i j, s.jobs.get? i = some j → j.pc = PC.coverArt →
      j.pc.holdsGateB = true) ∧
    (∀ s' i j j', Step s s' → s.jobs.get? i = some j →
      s'.jobs.get? i = some j' →
      j.pc.holdsGateB = true → j'.pc.holdsGateB = false →
      j'.pc = PC.finished) := by
  have hInv := reachable_inv hs
  refine ⟨?_, ?_, ?_⟩
  · intro i j hj hpre
    have hojb := hInv.jobsOk j (List.get?_mem hj)
    rcases hpre with hpc | hpc <;>
      (cases hr : j.record with
       | none => rw [hpc]; exact ⟨rfl, rfl⟩
       | some r => simp [jobOkB, pcOkB, hpc, hr] at hojb)
  · intro i j hj hpc
    rw [hpc]
    rfl
  · intro s' i j j' hstep hj hj' hT hF
    cases hstep with
    | @enhanceDone k j2 hj2 hpc2 =>
      exact (hold_src_aux _ hj2 hj hj' hT hF (by rw [hpc2]; rfl)).elim
    | @lyricsDone k j2 hj2 hpc2 =>
      exact (hold_src_aux _ hj2 hj hj' hT hF (by rw [hpc2]; rfl)).elim
    | @persistDone k j2 hj2 hpc2 =>
      exact (hold_src_aux _ hj2 hj hj' hT hF (by rw [hpc2]; rfl)).elim
    | @gateAcquire k j2 hj2 hpc2 hcap =>
      exact (hold_keep_aux _ hj2 hj hj' hT hF rfl).elim
    | @cancelAtGate k j2 hj2 hpc2 htab =>
      exact (hold_src_aux _ hj2 hj
        (show ((s.jobs.set k { j2 with pc := PC.finished })).get? i = some j' from hj')
        hT hF (by rw [hpc2]; rfl)).elim
    | @proc10 k j2 r hj2 hpc2 hr =>
      exact (hold_keep_aux _ hj2 hj hj' hT hF rfl).elim
    | @proc30 k j2 r hj2 hpc2 hr =>
      exact (hold_keep_aux _ hj2 hj hj' hT hF rfl).elim
    | @backendDone k j2 hj2 hpc2 =>
      exact (hold_keep_aux _ hj2 hj hj' hT hF rfl).elim
    | @audioSaved k j2 hj2 hpc2 =>
      exact (hold_keep_aux _ hj2 hj hj' hT hF
        (by cases hgc : j2.generateCover <;> simp [hgc, PC.holdsGateB])).elim
    | @progress70 k j2 r hj2 hpc2 hr =>
      exact (hold_keep_aux _ hj2 hj hj' hT hF rfl).elim
    | @completedWrite k j2 r fname hj2 hpc2 hr =>
      exact (hold_keep_aux _ hj2 hj hj' hT hF
        (by cases hgc : j2.generateCover <;> simp [hgc, PC.holdsGateB])).elim
    | @fetchSome k j2 hj2 hpc2 =>
      exact (hold_keep_aux _ hj2 hj hj' hT hF rfl).elim
    | @fetchNone k j2 hj2 hpc2 =>
      exact (hold_keep_aux _ hj2 hj hj' hT hF rfl).elim
    | @runFail k j2 msg tn htn hj2 hpc2 =>
      exact (hold_keep_aux _ hj2 hj hj' hT hF rfl).elim
    | @coverSaved k j2 r img hj2 hpc2 hr =>
      exact (hold_keep_aux _ hj2 hj hj' hT hF rfl).elim
    | @coverFail k j2 hj2 hpc2 =>
      exact (hold_keep_aux _ hj2 hj hj' hT hF rfl).elim
    | @failWrite k j2 r m hj2 hpc2 hr =>
      exact (hold_keep_aux _ hj2 hj hj' hT hF rfl).elim
    | @failWriteFail k j2 m hj2 hpc2 =>
      exact (hold_keep_aux _ hj2 hj hj' hT hF rfl).elim
    | @timeoutFire k j2 hj2 hpc2 =>
      exact (hold_keep_aux _ hj2 hj hj' hT hF rfl).elim
    | @timeoutWrite k j2 r hj2 hpc2 hr =>
      exact (hold_keep_aux _ hj2 hj hj' hT hF rfl).elim
    | @timeoutWriteFail k j2 hj2 hpc2 =>
      exact (hold_keep_aux _ hj2 hj hj' hT hF rfl).elim
    | @cancelFire k j2 hj2 htab hpc2 =>
      exact (hold_keep_aux _ hj2 hj hj' hT hF rfl).elim
    | @cancelWrite k j2 r hj2 hpc2 hr =>
      exact (hold_keep_aux _ hj2 hj hj' hT hF rfl).elim
    | @cancelWriteFail k j2 hj2 hpc2 =>
      exact (hold_keep_aux _ hj2 hj hj' hT hF rfl).elim
    | @taskFinish k j2 hj2 hpc2 =>
      replace hj' : (s.jobs.set k { j2 with pc := PC.finished }).get? i = some j' := hj'
      by_cases hik : k = i
      · subst hik
        rw [get?_set_self _ _ _ _ hj2] at hj'
        cases hj'
        rfl
      · rw [get?_set_ne _ _ hik, hj] at hj'
        cases hj'
        rw [hT] at hF
        cases hF

/-! ## Concrete traces used by witnesses and counterexamples -/

/-- One job with `generate_cover = False`. -/
def jsA (pc : PC) (rec : Option JobRec) : JobState :=
  ⟨pc, rec, false⟩

/-- One job with `generate_cover = True`. -/
def jsB (pc : PC) (rec : Option JobRec) : JobState :=
  ⟨pc, rec, true⟩

/-- Record after the progress-10 `processing` update. -/
def recP10 : JobRec := ⟨Status.processing, 10, none, none, none⟩

/-- Record after the progress-30 `processing` update. -/
def recP30 : JobRec := ⟨Status.processing, 30, none, none, none⟩

/-- Record after the progress-70 update. -/
def recP70 : JobRec := ⟨Status.processing, 70, none, none, none⟩

/-- Record after the `completed` update. -/
def recDone : JobRec := ⟨Status.completed, 100, none, some "song.wav", none⟩

/-- One job, record persisted, queued at the gate. -/
def sysA3 : Sys := ⟨[jsA PC.waitGate (some initRec)], [0]⟩

/-- One job, gate acquired, about to write the first `processing`
update. -/
def sysA4 : Sys := ⟨[jsA PC.updProc10 (some initRec)], [0]⟩

/-- One cover-requesting job inside `_generate_cover_art`, record
`completed`. -/
def sysB : Sys := ⟨[jsB PC.coverArt (some recDone)], [0]⟩

/-- Three jobs: two mid-backend-call, the third queued at the gate. -/
def sysC : Sys :=
  ⟨[jsA PC.backend (some recP30), jsA PC.backend (some recP30),
    jsA PC.waitGate (some initRec)], [2, 1, 0]⟩

theorem reachA3 : Reachable sysA3 := by
  refine ⟨[false], ?_⟩
  have t1 : Relation.ReflTransGen Step (initSys [false])
      (⟨[jsA PC.lyricsGen none], []⟩ : Sys) :=
    Relation.ReflTransGen.single (Step.enhanceDone 0 (show (initSys [false]).jobs.get? 0 = some (jsA PC.enhance none) from rfl) rfl)
  have t2 : Relation.ReflTransGen Step (initSys [false])
      (⟨[jsA PC.persistRec none], []⟩ : Sys) :=
    t1.tail (Step.lyricsDone 0 (show (⟨[jsA PC.lyricsGen none], []⟩ : Sys).jobs.get? 0 = some (jsA PC.lyricsGen none) from rfl) rfl)
  exact t2.tail (Step.persistDone 0 (show (⟨[jsA PC.persistRec none], []⟩ : Sys).jobs.get? 0 = some (jsA PC.persistRec none) from rfl) rfl)

theorem reachA4 : Reachable sysA4 := by
  obtain ⟨c, h⟩ := reachA3
  exact ⟨c, h.tail (Step.gateAcquire 0
    (show sysA3.jobs.get? 0 = some (jsA PC.waitGate (some initRec)) from rfl)
    rfl (by decide))⟩

theorem reachB : Reachable sysB := by
  refine ⟨[true], ?_⟩
  have t1 : Relation.ReflTransGen Step (initSys [true])
      (⟨[jsB PC.lyricsGen none], []⟩ : Sys) :=
    Relation.ReflTransGen.single (Step.enhanceDone 0 (show (initSys [true]).jobs.get? 0 = some (jsB PC.enhance none) from rfl) rfl)
  have t2 : Relation.ReflTransGen Step (initSys [true])
      (⟨[jsB PC.persistRec none], []⟩ : Sys) :=
    t1.tail (Step.lyricsDone 0 (show (⟨[jsB PC.lyricsGen none], []⟩ : Sys).jobs.get? 0 = some (jsB PC.lyricsGen none) from rfl) rfl)
  have t3 : Relation.ReflTransGen Step (initSys [true])
      (⟨[jsB PC.waitGate (some initRec)], [0]⟩ : Sys) :=
    t2.tail (Step.persistDone 0 (show (⟨[jsB PC.persistRec none], []⟩ : Sys).jobs.get? 0 = some (jsB PC.persistRec none) from rfl) rfl)
  have t4 : Relation.ReflTransGen Step (initSys [true])
      (⟨[jsB PC.updProc10 (some initRec)], [0]⟩ : Sys) :=
    t3.tail (Step.gateAcquire 0 (show (⟨[jsB PC.waitGate (some initRec)], [0]⟩ : Sys).jobs.get? 0 = some (jsB PC.waitGate (some initRec)) from rfl) rfl (by decide))
  have t5 : Relation.ReflTransGen Step (initSys [true])
      (⟨[jsB PC.updProc30 (some recP10)], [0]⟩ : Sys) :=
    t4.tail (Step.proc10 0 (show (⟨[jsB PC.updProc10 (some initRec)], [0]⟩ : Sys).jobs.get? 0 = some (jsB PC.updProc10 (some initRec)) from rfl) rfl rfl)
  have t6 : Relation.ReflTransGen Step (initSys [true])
      (⟨[jsB PC.backend (some recP30)], [0]⟩ : Sys) :=
    t5.tail (Step.proc30 0 (show (⟨[jsB PC.updProc30 (some recP10)], [0]⟩ : Sys).jobs.get? 0 = some (jsB PC.updProc30 (some recP10)) from rfl) rfl rfl)
  have t7 : Relation.ReflTransGen Step (initSys [true])
      (⟨[jsB PC.persistAudio (some recP30)], [0]⟩ : Sys) :=
    t6.tail (Step.backendDone 0 (show (⟨[jsB PC.backend (some recP30)], [0]⟩ : Sys).jobs.get? 0 = some (jsB PC.backend (some recP30)) from rfl) rfl)
  have t8 : Relation.ReflTransGen Step (initSys [true])
      (⟨[jsB PC.updProgress70 (some recP30)], [0]⟩ : Sys) :=
    t7.tail (Step.audioSaved 0 (show (⟨[jsB PC.persistAudio (some recP30)], [0]⟩ : Sys).jobs.get? 0 = some (jsB PC.persistAudio (some recP30)) from rfl) rfl)
  have t9 : Relation.ReflTransGen Step (initSys [true])
      (⟨[jsB PC.updCompleted (some recP70)], [0]⟩ : Sys) :=
    t8.tail (Step.progress70 0 (show (⟨[jsB PC.updProgress70 (some recP30)], [0]⟩ : Sys).jobs.get? 0 = some (jsB PC.updProgress70 (some recP30)) from rfl) rfl rfl)
  have t10 : Relation.ReflTransGen Step (initSys [true])
      (⟨[jsB PC.fetchCover (some recDone)], [0]⟩ : Sys) :=
    t9.tail (Step.completedWrite 0 "song.wav" (show (⟨[jsB PC.updCompleted (some recP70)], [0]⟩ : Sys).jobs.get? 0 = some (jsB PC.updCompleted (some recP70)) from rfl) rfl rfl)
  exact t10.tail (Step.fetchSome 0 (show (⟨[jsB PC.fetchCover (some recDone)], [0]⟩ : Sys).jobs.get? 0 = some (jsB PC.fetchCover (some recDone)) from rfl) rfl)

theorem reachC : Reachable sysC := by
  refine ⟨[false, false, false], ?_⟩
  have t1 : Relation.ReflTransGen Step (initSys [false, false, false])
      (⟨[jsA PC.lyricsGen none, jsA PC.enhance none, jsA PC.enhance none], []⟩ : Sys) :=
    Relation.ReflTransGen.single (Step.enhanceDone 0 (show (initSys [false, false, false]).jobs.get? 0 = some (jsA PC.enhance none) from rfl) rfl)
  have t2 : Relation.ReflTransGen Step (initSys [false, false, false])
      (⟨[jsA PC.persistRec none, jsA PC.enhance none, jsA PC.enhance none], []⟩ : Sys) :=
    t1.tail (Step.lyricsDone 0 (show (⟨[jsA PC.lyricsGen none, jsA PC.enhance none, jsA PC.enhance none], []⟩ : Sys).jobs.get? 0 = some (jsA PC.lyricsGen none) from rfl) rfl)
  have t3 : Relation.ReflTransGen Step (initSys [false, false, false])
      (⟨[jsA PC.waitGate (some initRec), jsA PC.enhance none, jsA PC.enhance none], [0]⟩ : Sys) :=
    t2.tail (Step.persistDone 0 (show (⟨[jsA PC.persistRec none, jsA PC.enhance none, jsA PC.enhance none], []⟩ : Sys).jobs.get? 0 = some (jsA PC.persistRec none) from rfl) rfl)
  have t4 : Relation.ReflTransGen Step (initSys [false, false, false])
      (⟨[jsA PC.updProc10 (some initRec), jsA PC.enhance none, jsA PC.enhance none], [0]⟩ : Sys) :=
    t3.tail (Step.gateAcquire 0 (show (⟨[jsA PC.waitGate (some initRec), jsA PC.enhance none, jsA PC.enhance none], [0]⟩ : Sys).jobs.get? 0 = some (jsA PC.waitGate (some initRec)) from rfl) rfl (by decide))
  have t5 : Relation.ReflTransGen Step (initSys [false, false, false])
      (⟨[jsA PC.updProc30 (some recP10), jsA PC.enhance none, jsA PC.enhance none], [0]⟩ : Sys) :=
    t4.tail (Step.proc10 0 (show (⟨[jsA PC.updProc10 (some initRec), jsA PC.enhance none, jsA PC.enhance none], [0]⟩ : Sys).jobs.get? 0 = some (jsA PC.updProc10 (some initRec)) from rfl) rfl rfl)
  have t6 : Relation.ReflTransGen Step (initSys [false, false, false])
      (⟨[jsA PC.backend (some recP30), jsA PC.enhance none, jsA PC.enhance none], [0]⟩ : Sys) :=
    t5.tail (Step.proc30 0 (show (⟨[jsA PC.updProc30 (some recP10), jsA PC.enhance none, jsA PC.enhance none], [0]⟩ : Sys).jobs.get? 0 = some (jsA PC.updProc30 (some recP10)) from rfl) rfl rfl)
  have t7 : Relation.ReflTransGen Step (initSys [false, false, false])
      (⟨[jsA PC.backend (some recP30), jsA PC.lyricsGen none, jsA PC.enhance none], [0]⟩ : Sys) :=
    t6.tail (Step.enhanceDone 1 (show (⟨[jsA PC.backend (some recP30), jsA PC.enhance none, jsA PC.enhance none], [0]⟩ : Sys).jobs.get? 1 = some (jsA PC.enhance none) from rfl) rfl)
  have t8 : Relation.ReflTransGen Step (initSys [false, false, false])
      (⟨[jsA PC.backend (some recP30), jsA PC.persistRec none, jsA PC.enhance none], [0]⟩ : Sys) :=
    t7.tail (Step.lyricsDone 1 (show (⟨[jsA PC.backend (some recP30), jsA PC.lyricsGen none, jsA PC.enhance none], [0]⟩ : Sys).jobs.get? 1 = some (jsA PC.lyricsGen none) from rfl) rfl)
  have t9 : Relation.ReflTransGen Step (initSys [false, false, false])
      (⟨[jsA PC.backend (some recP30), jsA PC.waitGate (some initRec), jsA PC.enhance none], [1, 0]⟩ : Sys) :=
    t8.tail (Step.persistDone 1 (show (⟨[jsA PC.backend (some recP30), jsA PC.persistRec none, jsA PC.enhance none], [0]⟩ : Sys).jobs.get? 1 = some (jsA PC.persistRec none) from rfl) rfl)
  have t10 : Relation.ReflTransGen Step (initSys [false, false, false])
      (⟨[jsA PC.backend (some recP30), jsA PC.updProc10 (some initRec), jsA PC.enhance none], [1, 0]⟩ : Sys) :=
    t9.tail (Step.gateAcquire 1 (show (⟨[jsA PC.backend (some recP30), jsA PC.waitGate (some initRec), jsA PC.enhance none], [1, 0]⟩ : Sys).jobs.get? 1 = some (jsA PC.waitGate (some initRec)) from rfl) rfl (by decide))
  have t11 : Relation.ReflTransGen Step (initSys [false, false, false])
      (⟨[jsA PC.backend (some recP30), jsA PC.updProc30 (some recP10), jsA PC.enhance none], [1, 0]⟩ : Sys) :=
    t10.tail (Step.proc10 1 (show (⟨[jsA PC.backend (some recP30), jsA PC.updProc10 (some initRec), jsA PC.enhance none], [1, 0]⟩ : Sys).jobs.get? 1 = some (jsA PC.updProc10 (some initRec)) from rfl) rfl rfl)
  have t12 : Relation.ReflTransGen Step (initSys [false, false, false])
      (⟨[jsA PC.backend (some recP30), jsA PC.backend (some recP30), jsA PC.enhance none], [1, 0]⟩ : Sys) :=
    t11.tail (Step.proc30 1 (show (⟨[jsA PC.backend (some recP30), jsA PC.updProc30 (some recP10), jsA PC.enhance none], [1, 0]⟩ : Sys).jobs.get? 1 = some (jsA PC.updProc30 (some recP10)) from rfl) rfl rfl)
  have t13 : Relation.ReflTransGen Step (initSys [false, false, false])
      (⟨[jsA PC.backend (some recP30), jsA PC.backend (some recP30), jsA PC.lyricsGen none], [1, 0]⟩ : Sys) :=
    t12.tail (Step.enhanceDone 2 (show (⟨[jsA PC.backend (some recP30), jsA PC.backend (some recP30), jsA PC.enhance none], [1, 0]⟩ : Sys).jobs.get? 2 = some (jsA PC.enhance none) from rfl) rfl)
  have t14 : Relation.ReflTransGen Step (initSys [false, false, false])
      (⟨[jsA PC.backend (some recP30), jsA PC.backend (some recP30), jsA PC.persistRec none], [1, 0]⟩ : Sys) :=
    t13.tail (Step.lyricsDone 2 (show (⟨[jsA PC.backend (some recP30), jsA PC.backend (some recP30), jsA PC.lyricsGen none], [1, 0]⟩ : Sys).jobs.get? 2 = some (jsA PC.lyricsGen none) from rfl) rfl)
  exact t14.tail (Step.persistDone 2 (show (⟨[jsA PC.backend (some recP30), jsA PC.backend (some recP30), jsA PC.persistRec none], [1, 0]⟩ : Sys).jobs.get? 2 = some (jsA PC.persistRec none) from rfl) rfl)

/-! ## Witnesses and counterexamples for the concurrency claims -/

/-- C1 counterexample: with the default capacity 2 and M = 3 concurrent
jobs with slow backends, a reachable state has two jobs mid-backend-call
and the third queued at the gate with status still `pending` — not
`processing` as the claim states (the `processing` update happens only
after the gate is acquired). -/
theorem c1_counterexample :
    Reachable sysC ∧
    countBackend sysC = 2 ∧
    sysC.jobs.get? 2 = some (jsA PC.waitGate (some initRec)) ∧
    initRec.status = Status.pending ∧
    Status.pending ≠ Status.processing :=
  ⟨reachC, rfl, rfl, rfl, by decide⟩

/-- C1 witness: the capacity and backend-call bound at the concrete
three-job state. -/
theorem c1_witness : semaphoreCapacity = 2 ∧ countBackend sysC ≤ 2 :=
  ⟨(c1_gate_bound reachC).1, (c1_gate_bound reachC).2.1⟩

/-- C5 witness: the invariant instance at a reachable state with a
persisted (pending) record. -/
theorem c5_witness :
    (initRec.status = Status.failed ↔ initRec.errorMessage.isSome = true) :=
  (c5_failed_iff_error reachA3
    (show sysA3.jobs.get? 0 = some (jsA PC.waitGate (some initRec)) from rfl)
    rfl).1

/-- C3 witness: the timeout scenario run from a reachable state whose
unit of work is inside the timed region. -/
theorem c3_witness :
    _GENERATION_TIMEOUT = 30 * 60 ∧
    ∃ s₁ s₂ s₃, Step sysA4 s₁ ∧ Step s₁ s₂ ∧ Step s₂ s₃ ∧
      (∃ j₂, s₂.jobs.get? 0 = some j₂ ∧
        j₂.record = some { initRec with
          status := Status.failed,
          errorMessage := some "Generation timed out",
          progress := 0 }) ∧
      0 ∉ s₃.table :=
  c3_timeout reachA4
    (show sysA4.jobs.get? 0 = some (jsA PC.updProc10 (some initRec)) from rfl)
    rfl rfl

/-- C2 witness: the cover-art failure scenario at a reachable state
whose job is inside the enrichment step. -/
theorem c2_witness :
    ∃ r, (jsB PC.coverArt (some recDone)).record = some r ∧
      r.status = Status.completed ∧ r.errorMessage = none ∧
      r.coverArtPath = none ∧
      ∃ s', Step sysB s' ∧
        (∃ j', s'.jobs.get? 0 = some j' ∧ j'.record = some r ∧
          j'.pc = PC.finishGate) ∧
        ∀ s'', Relation.ReflTransGen Step s' s'' →
          ∃ j'', s''.jobs.get? 0 = some j'' ∧ j''.record = some r :=
  c2_cover_failure reachB
    (show sysB.jobs.get? 0 = some (jsB PC.coverArt (some recDone)) from rfl)
    rfl

/-- C10 witness: cancellation of the job queued at the gate in a
reachable one-job state. -/
theorem c10_witness :
    cancel_task sysA3 0 = true ∧
    ∃ r, (jsA PC.waitGate (some initRec)).record = some r ∧
      r.status = Status.pending ∧ r.errorMessage = none ∧
      ∃ s', Step sysA3 s' ∧
        (∃ j', s'.jobs.get? 0 = some j' ∧ j'.pc = PC.finished ∧
          j'.record = some r) ∧
        0 ∉ s'.table ∧
        ∀ s'', Relation.ReflTransGen Step s' s'' →
          ∃ j'', s''.jobs.get? 0 = some j'' ∧ j''.record = some r :=
  c10_cancel_at_gate reachA3
    (show sysA3.jobs.get? 0 = some (jsA PC.waitGate (some initRec)) from rfl)
    rfl

/-- C7 counterexample: the claim states cover-art enrichment runs after
the gate is released; in the reachable state `sysB` the job is inside
the enrichment step while its gate slot is still held. -/
theorem c7_counterexample :
    Reachable sysB ∧
    sysB.jobs.get? 0 = some (jsB PC.coverArt (some recDone)) ∧
    PC.coverArt.holdsGateB = true ∧
    countHolders sysB = 1 :=
  ⟨reachB, rfl, rfl, rfl⟩

/-- C7 witness: the gated-cover-art part of the amended statement at
the concrete reachable state. -/
theorem c7_witness : PC.coverArt.holdsGateB = true :=
  (c7_gate_extent reachB).2.1 0 (jsB PC.coverArt (some recDone)) rfl rfl

end HikariWave
